import Mathlib

/-!
# tcp_diag: netlink codec, diagnostic session and namespace iterator

A shallow embedding of `src/netlink/netlink.go`, `src/tcp_diag/tcp_diag.go` and
`src/namespace/namespace.go`.

Conventions of the embedding

* Machine integers are `Nat` (or `Int` for `int32`) with an explicit reduction
  modulo `2^w` wherever the Go code computes in a `w`-bit type.
* A Go slice is its runtime header `(ptr, len, cap)` over a byte memory
  `mem : Nat → Nat`.  Checked operations (`s[i]`, `s[lo:]`, `s[lo:hi]`) test
  `len` or `cap` the way the Go runtime does; a read through an
  `unsafe.Pointer` is not checked and is a plain memory read.
* The host is little-endian (the transport header and the attribute header are
  read in host order through pointer casts).
* A Go `panic` is an explicit result; a loop that may spin is given fuel.
* A wrapping subtraction `a - b` on `w`-bit operands is written
  `(2^w + a - b) % 2^w`, the constant first.
-/

namespace TcpDiag

/-! ## Go runtime: slices, panics, results -/

/-- Slice header `(ptr, len, cap)` over a byte-addressed memory. -/
structure GoSlice where
  mem : Nat → Nat
  ptr : Nat
  len : Nat
  cap : Nat

/-- Every slice Go builds has `len ≤ cap`. -/
def GoSlice.WF (s : GoSlice) : Prop := s.len ≤ s.cap

instance (s : GoSlice) : Decidable s.WF := by unfold GoSlice.WF; infer_instance

/-- Go `s[low:]`: the runtime requires `low ≤ len(s)`. -/
def GoSlice.sliceFrom (s : GoSlice) (low : Nat) : Option GoSlice :=
  if low ≤ s.len then
    some { mem := s.mem, ptr := s.ptr + low, len := s.len - low, cap := s.cap - low }
  else none

/-- Go `s[low:high]`: the runtime requires `low ≤ high ≤ cap(s)`. -/
def GoSlice.slice (s : GoSlice) (low high : Nat) : Option GoSlice :=
  if low ≤ high ∧ high ≤ s.cap then
    some { mem := s.mem, ptr := s.ptr + low, len := high - low, cap := s.cap - low }
  else none

/-- Go `&s[0]`: an index expression, checked against `len(s)`. -/
def GoSlice.addr0 (s : GoSlice) : Option Nat :=
  if 0 < s.len then some s.ptr else none

/-- Unchecked host-order read of a `uint16` at an address. -/
def peek16 (mem : Nat → Nat) (a : Nat) : Nat :=
  mem a % 256 + 256 * (mem (a + 1) % 256)

/-- Unchecked host-order read of a `uint32` at an address. -/
def peek32 (mem : Nat → Nat) (a : Nat) : Nat :=
  mem a % 256 + 256 * (mem (a + 1) % 256) + 65536 * (mem (a + 2) % 256)
    + 16777216 * (mem (a + 3) % 256)

/-- The ways the decoder and the session can panic. -/
inductive Panic where
  | sliceBounds    -- runtime: slice bounds out of range
  | indexRange     -- runtime: index out of range
  | attrSizeError  -- panic(fmt.Errorf("attr size error"))
  | sizeErr        -- panic(fmt.Errorf("size err"))
  | tcpInfoSize    -- panic in parseTcpInfoTcpInfo
  deriving DecidableEq, Repr

/-- Result of running Go code that may panic or may not finish within the fuel. -/
inductive Res (α : Type) where
  | ok (a : α)
  | panic (p : Panic)
  | spin
  deriving DecidableEq, Repr

/-! ## Constants of package `syscall` (linux) used by the source -/

def NLMSG_HDRLEN : Nat := 16
def SizeofNlMsghdr : Nat := 16
def NLA_HDRLEN : Nat := 4
def NLA_ALIGNTO : Nat := 4
def SizeofTCPInfo : Nat := 104
def NLMSG_ERROR : Nat := 2
def NLMSG_DONE : Nat := 3

/-! ## netlink.go: wire types -/

def INET_DIAG_NONE : Nat := 0
def INET_DIAG_MEMINFO : Nat := 1
def INET_DIAG_INFO : Nat := 2
def INET_DIAG_VEGASINFO : Nat := 3
def INET_DIAG_CONG : Nat := 4
def INET_DIAG_TOS : Nat := 5
def INET_DIAG_TCLASS : Nat := 6
def INET_DIAG_SKMEMINFO : Nat := 7
def INET_DIAG_SHUTDOWN : Nat := 8

/-- The type `syscall.NlMsghdr`. -/
structure NlMsghdr where
  Len : Nat
  Type_ : Nat
  Flags : Nat
  Seq : Nat
  Pid : Nat
  deriving DecidableEq, Repr

/-- The type `syscall.NetlinkMessage`. -/
structure NetlinkMessage where
  Header : NlMsghdr
  Data : GoSlice

/-- `unsafe.Sizeof(InetDiagSockId{})`: 2+2 ports, 4×4 src, 4×4 dst, if, 2×4 cookie. -/
def SizeofInetDiagSockId : Nat := 2 + 2 + 4 * 4 + 4 * 4 + 4 + 2 * 4

/-- `unsafe.Sizeof(InetDiagMsg{})`: four bytes, the socket id, five `uint32`. -/
def SizeofInetDiagMsg : Nat := 4 + SizeofInetDiagSockId + 5 * 4

/-- Entry of the attribute map; `Val` is the pointer `&attrData[0]`. -/
structure InetDiagAttr where
  ID : Nat
  Val : Nat
  Size : Nat
  deriving DecidableEq, Repr

/-- Go `map[uint16]InetDiagAttr` as an association list with unique keys. -/
abbrev AttrMap := List (Nat × InetDiagAttr)

/-- Go `m[k] = v`. -/
def AttrMap.set (m : AttrMap) (k : Nat) (v : InetDiagAttr) : AttrMap :=
  (k, v) :: m.filter (fun e => e.1 ≠ k)

/-- Go `v, ok := m[k]`. -/
def AttrMap.get? (m : AttrMap) (k : Nat) : Option InetDiagAttr :=
  (m.find? (fun e => e.1 = k)).map (fun e => e.2)

/-! ## netlink.go: ParseInetDiagAttr -/

/-- `parseTcpInfoTcpInfo`: panics on a payload shorter than `syscall.TCPInfo`,
otherwise reinterprets `&attrData[0]`. -/
def parseTcpInfoTcpInfo (attrData : GoSlice) : Except Panic Nat :=
  if attrData.len < SizeofTCPInfo then .error .tcpInfoSize
  else
    match attrData.addr0 with
    | none => .error .indexRange
    | some p => .ok p

/-- The closure `NLA_ALIGN` of `ParseInetDiagAttr`, in `uint16` arithmetic:
`((size + alignto - 1) & ^(alignto - 1))`. -/
def NLA_ALIGN (size alignto : Nat) : Nat :=
  ((65536 + (size + alignto) - 1) % 65536) &&& (65535 - ((65536 + alignto - 1) % 65536))

/-- Outcome of one pass through the body of the `for` loop. -/
inductive Step where
  | next (idx : Nat) (ret : AttrMap)
  | panic (p : Panic)
  deriving DecidableEq, Repr

/-- The `switch attr.Type` of the loop body. -/
def attrSwitch (attrType : Nat) (attrData : GoSlice) (ret : AttrMap) :
    Except Panic AttrMap :=
  match attrType with
  | 1 => .ok ret
  | 2 =>
    match parseTcpInfoTcpInfo attrData with
    | .ok tcpinfo =>
      .ok (ret.set INET_DIAG_INFO
        { ID := INET_DIAG_INFO, Val := tcpinfo, Size := attrData.len % 65536 })
    | .error p => .error p
  | 3 => .ok ret
  | 4 => .ok ret
  | 5 => .ok ret
  | 6 => .ok ret
  | 7 => .ok ret
  | 8 => .ok ret
  | _ => .ok ret

/-- Body of the `for idx = 0; idx < attrSize; { ... }` loop of `ParseInetDiagAttr`. -/
def attrStep (rawAttrs : GoSlice) (attrSize idx : Nat) (ret : AttrMap) : Step :=
  match rawAttrs.sliceFrom idx with
  | none => .panic .sliceBounds
  | some rawAttr =>
    match rawAttr.addr0 with
    | none => .panic .indexRange
    | some attr =>
      if (idx + NLA_HDRLEN) % 65536 > attrSize then .panic .attrSizeError
      else
        let attrLen := peek16 rawAttr.mem attr
        let attrDataSize := (65536 + attrLen - NLA_HDRLEN) % 65536
        if attrDataSize = 0 then .next ((idx + NLA_HDRLEN) % 65536) ret
        else
          match rawAttr.slice NLA_HDRLEN ((NLA_HDRLEN + attrDataSize) % 65536) with
          | none => .panic .sliceBounds
          | some attrData =>
            let attrType := peek16 rawAttr.mem (attr + 2)
            match attrSwitch attrType attrData ret with
            | .ok ret' => .next ((idx + NLA_ALIGN attrLen NLA_ALIGNTO) % 65536) ret'
            | .error p => .panic p

/-- The `for` loop and the final `idx != attrSize` check; one unit of fuel per
evaluation of the loop condition. -/
def attrLoop : Nat → GoSlice → Nat → Nat → AttrMap → Res AttrMap
  | 0, _, _, _, _ => .spin
  | fuel + 1, rawAttrs, attrSize, idx, ret =>
    if idx < attrSize then
      match attrStep rawAttrs attrSize idx ret with
      | .next idx' ret' => attrLoop fuel rawAttrs attrSize idx' ret'
      | .panic p => .panic p
    else if idx ≠ attrSize then .panic .sizeErr
    else .ok ret

/-- The declared attribute-region length as the source computes it:
`uint16(msg.Header.Len - dataSize - syscall.NLMSG_HDRLEN)` with `uint32` operands. -/
def attrSizeOf (msg : NetlinkMessage) : Nat :=
  ((4294967296 + ((4294967296 + msg.Header.Len % 4294967296 - SizeofInetDiagMsg) % 4294967296)
      - NLMSG_HDRLEN) % 4294967296) % 65536

/-- `ParseInetDiagAttr`; the `error` result of the source is always `nil`. -/
def ParseInetDiagAttr (fuel : Nat) (msg : NetlinkMessage) : Res AttrMap :=
  let ret : AttrMap := []
  let dataSize := SizeofInetDiagMsg
  let attrSize := attrSizeOf msg
  if attrSize = 0 then .ok ret
  else
    match msg.Data.sliceFrom dataSize with
    | none => .panic .sliceBounds
    | some rawAttrs => attrLoop fuel rawAttrs attrSize 0 ret

/-! ## netlink.go: request serialisation -/

/-- The type `be32`, four bytes in network order. -/
structure Be32 where
  b0 : Nat
  b1 : Nat
  b2 : Nat
  b3 : Nat
  deriving DecidableEq, Repr

/-- The type `InetDiagSockId`. -/
structure InetDiagSockId where
  IDiagSPort : Nat
  IDiagDPort : Nat
  IDiagSrc : Be32 × Be32 × Be32 × Be32
  IDiagDst : Be32 × Be32 × Be32 × Be32
  IDiagIf : Nat
  IDiagCookie : Nat × Nat
  deriving DecidableEq, Repr

/-- The type `InetDiagReqV2`. -/
structure InetDiagReqV2 where
  SDiagFamily : Nat
  SDiagProtocol : Nat
  IDiagExt : Nat
  Pad : Nat
  IDiagStates : Nat
  Id : InetDiagSockId
  deriving DecidableEq, Repr

/-- The type `NetlinkRequest`. -/
structure NetlinkRequest where
  Nlh : NlMsghdr
  Data : InetDiagReqV2
  deriving DecidableEq, Repr

/-- `unsafe.Sizeof(req.Data)`: four bytes, a `uint32`, the socket id. -/
def SizeofInetDiagReqV2 : Nat := 4 + 4 + SizeofInetDiagSockId

/-- Memory image of a `uint8`. -/
def u8 (v : Nat) : List Nat := [v % 256]

/-- Memory image of a `uint16` in host order. -/
def le16 (v : Nat) : List Nat := [v % 256, v / 256 % 256]

/-- Memory image of a `uint32` in host order. -/
def le32 (v : Nat) : List Nat :=
  [v % 256, v / 256 % 256, v / 65536 % 256, v / 16777216 % 256]

/-- Memory image of a `be32` (a byte array: stored as is). -/
def Be32.image (b : Be32) : List Nat := u8 b.b0 ++ u8 b.b1 ++ u8 b.b2 ++ u8 b.b3

/-- Memory image of `[4]be32`. -/
def be32x4 (a : Be32 × Be32 × Be32 × Be32) : List Nat :=
  a.1.image ++ a.2.1.image ++ a.2.2.1.image ++ a.2.2.2.image

/-- Memory image of `syscall.NlMsghdr`: the fields in declaration order, no padding. -/
def NlMsghdr.image (h : NlMsghdr) : List Nat :=
  le32 h.Len ++ le16 h.Type_ ++ le16 h.Flags ++ le32 h.Seq ++ le32 h.Pid

/-- Memory image of `InetDiagSockId`; every field is naturally aligned, no padding. -/
def InetDiagSockId.image (i : InetDiagSockId) : List Nat :=
  le16 i.IDiagSPort ++ le16 i.IDiagDPort ++ be32x4 i.IDiagSrc ++ be32x4 i.IDiagDst
    ++ le32 i.IDiagIf ++ (le32 i.IDiagCookie.1 ++ le32 i.IDiagCookie.2)

/-- Memory image of `InetDiagReqV2`. -/
def InetDiagReqV2.image (r : InetDiagReqV2) : List Nat :=
  u8 r.SDiagFamily ++ u8 r.SDiagProtocol ++ u8 r.IDiagExt ++ u8 r.Pad
    ++ le32 r.IDiagStates ++ r.Id.image

/-- Go `copy(dst[lo:hi], src)` on the buffer `dst`. -/
def goCopy (dst : List Nat) (lo hi : Nat) (src : List Nat) : List Nat :=
  let n := min (hi - lo) src.length
  dst.take lo ++ src.take n ++ dst.drop (lo + n)

/-- `(*NetlinkRequest).Serialize`: the request after the call (its `Nlh.Len` is
overwritten) and the returned buffer. -/
def Serialize (req : NetlinkRequest) : NetlinkRequest × List Nat :=
  let hdrLen := SizeofNlMsghdr
  let DataLen := SizeofInetDiagReqV2
  let dataBytes := List.replicate (hdrLen + DataLen) 0
  let req := { req with Nlh := { req.Nlh with Len := (DataLen + hdrLen) % 4294967296 } }
  let hdr := (req.Nlh.image).take SizeofNlMsghdr
  let data := (req.Data.image).take DataLen
  let dataBytes := goCopy dataBytes 0 hdrLen hdr
  let dataBytes := goCopy dataBytes hdrLen (hdrLen + DataLen) data
  (req, dataBytes)

/-- Byte `k` (0 the least significant) of an unsigned value, as the wire format
counts them in host order. -/
def byteOf (v k : Nat) : Nat := v / 256 ^ k % 256

/-- Host-order `uint16` at offset `o` of a buffer. -/
def get16 (b : List Nat) (o : Nat) : Nat := b.getD o 0 + 256 * b.getD (o + 1) 0

/-- Host-order `uint32` at offset `o` of a buffer. -/
def get32 (b : List Nat) (o : Nat) : Nat :=
  b.getD o 0 + 256 * b.getD (o + 1) 0 + 65536 * b.getD (o + 2) 0
    + 16777216 * b.getD (o + 3) 0

/-- Reading the transport header back from the first 16 bytes of a buffer. -/
def parseNlMsghdr (b : List Nat) : Option NlMsghdr :=
  if b.length < SizeofNlMsghdr then none
  else some { Len := get32 b 0, Type_ := get16 b 4, Flags := get16 b 6,
              Seq := get32 b 8, Pid := get32 b 12 }

/-- Constants of `tcp_diag.go` and `syscall` used to build the dump request. -/
def SOCK_DIAG_BY_FAMILY : Nat := 20
def NLM_F_REQUEST : Nat := 1
def NLM_F_DUMP : Nat := 768
def AF_INET : Nat := 2
def IPPROTO_TCP : Nat := 6
def TCP_STATE_FLAG_ALL : Nat := (1 <<< 13) - 1
def INET_DIAG_INFO_FLAG : Nat := 1 <<< (INET_DIAG_INFO - 1)
def INET_DIAG_VEGASINFO_FLAG : Nat := 1 <<< (INET_DIAG_VEGASINFO - 1)
def INET_DIAG_CONG_FLAG : Nat := 1 <<< (INET_DIAG_CONG - 1)
def CUSTOM_TCPINFO_FLAG : Nat :=
  INET_DIAG_INFO_FLAG ||| INET_DIAG_VEGASINFO_FLAG ||| INET_DIAG_CONG_FLAG

/-- The zero value of `InetDiagSockId`. -/
def InetDiagSockId.zero : InetDiagSockId :=
  let z : Be32 := ⟨0, 0, 0, 0⟩
  { IDiagSPort := 0, IDiagDPort := 0, IDiagSrc := (z, z, z, z), IDiagDst := (z, z, z, z),
    IDiagIf := 0, IDiagCookie := (0, 0) }

/-- `NewInetDiagReqV2`. -/
def NewInetDiagReqV2 (family protocol states : Nat) : InetDiagReqV2 :=
  { SDiagFamily := family, SDiagProtocol := protocol, IDiagExt := CUSTOM_TCPINFO_FLAG,
    Pad := 0, IDiagStates := states, Id := InetDiagSockId.zero }

/-! ## tcp_diag.go: Dump -/

/-- The type `TcpDiagInfo`; `Data` is the pointer `&msg.Data[0]`. -/
structure TcpDiagInfo where
  Data : Nat
  Attrs : AttrMap
  deriving DecidableEq, Repr

/-- Errors `Dump` returns: an errno from the transport, or the formatted
"netlink returned error message with error code %d" carrying the printed code. -/
inductive DumpErr where
  | transport (errno : Nat)
  | netlink (code : Int)
  deriving DecidableEq, Repr

/-- How a call of `Dump` ends, with the caller's list as it then stands. -/
inductive DumpRes where
  | returned (infos : List TcpDiagInfo) (err : Option DumpErr)
  | panicked (infos : List TcpDiagInfo) (p : Panic)
  | spin (infos : List TcpDiagInfo)
  deriving DecidableEq, Repr

/-- A `uint32` bit pattern read as `int32`. -/
def toInt32 (u : Nat) : Int :=
  if u % 4294967296 < 2147483648 then (u % 4294967296 : Nat)
  else ((u % 4294967296 : Nat) : Int) - 4294967296

/-- Go unary minus on `int32` (wraps at the minimum). -/
def negInt32 (x : Int) : Int := (-x + 2147483648) % 4294967296 - 2147483648

/-- `ParseInetDiagMsg`: `&data[0]` reinterpreted. -/
def ParseInetDiagMsg (data : GoSlice) : Option Nat := data.addr0

/-- The `for _, msg := range responses` loop of `Dump`. -/
def dumpLoop (fuel : Nat) : List NetlinkMessage → List TcpDiagInfo → DumpRes
  | [], infos => .returned infos none
  | msg :: rest, infos =>
    if msg.Header.Type_ = NLMSG_ERROR then
      match msg.Data.addr0 with
      | none => .panicked infos .indexRange
      | some msgerr =>
        .returned infos (some (.netlink (negInt32 (toInt32 (peek32 msg.Data.mem msgerr)))))
    else if msg.Header.Type_ = NLMSG_DONE then .returned infos none
    else
      match ParseInetDiagMsg msg.Data with
      | none => .panicked infos .indexRange
      | some data =>
        match ParseInetDiagAttr fuel msg with
        | .ok attr => dumpLoop fuel rest (infos ++ [{ Data := data, Attrs := attr }])
        | .panic p => .panicked infos p
        | .spin => .spin infos

/-- What the netlink socket does for one `Dump`: the result of `Send` on the
serialised request and the result of `Receive`. -/
structure NetLinkSocket where
  send : List Nat → Option Nat
  receive : Except Nat (List NetlinkMessage)

/-- `(*TcpDiagHandler).Dump`. -/
def Dump (fuel : Nat) (sock : NetLinkSocket) (pid : Nat) (infos : List TcpDiagInfo) :
    DumpRes :=
  let req : NetlinkRequest :=
    { Nlh := { Len := 0, Type_ := SOCK_DIAG_BY_FAMILY, Flags := NLM_F_DUMP ||| NLM_F_REQUEST,
               Seq := 0, Pid := pid % 4294967296 },
      Data := NewInetDiagReqV2 AF_INET IPPROTO_TCP TCP_STATE_FLAG_ALL }
  match sock.send (Serialize req).2 with
  | some err => .returned infos (some (.transport err))
  | none =>
    match sock.receive with
    | .error err => .returned infos (some (.transport err))
    | .ok responses => dumpLoop fuel responses infos

/-! ## namespace.go: ForEachNetNS -/

/-- What is tracked of the calling OS thread: the network namespace it is in, the
`Setns` calls `ForEachNetNS` made (target namespace, success) and the handles it
closed (`none` for the `-1` of a failed open). -/
structure Thread where
  netns : Nat
  switches : List (Nat × Bool)
  closed : List (Option Nat)
  deriving DecidableEq, Repr

/-- One discovered namespace with what the system does when it is visited: whether
`unix.Open` and `unix.Setns` succeed, and the visitor `fn`, which may itself move
the thread and reports whether it returned an error. -/
structure NameSpace where
  Ino : Nat
  openOk : Bool
  setnsOk : Bool
  visit : Nat → Nat × Bool

/-- `SetNetNs` on a handle of namespace `target`. -/
def SetNetNs (ok : Bool) (target : Nat) (t : Thread) : Thread × Bool :=
  if ok then ({ t with netns := target, switches := t.switches ++ [(target, true)] }, true)
  else ({ t with switches := t.switches ++ [(target, false)] }, false)

/-- The `for _, ns := range allNs` loop of `ForEachNetNS`. -/
def nsLoop : List NameSpace → Thread → Thread
  | [], t => t
  | ns :: rest, t =>
    if ns.openOk then
      match SetNetNs ns.setnsOk ns.Ino t with
      | (t1, true) =>
        let r := ns.visit t1.netns
        let t2 := { t1 with netns := r.1 }
        if r.2 then { t2 with closed := t2.closed ++ [some ns.Ino] }
        else nsLoop rest { t2 with closed := t2.closed ++ [some ns.Ino] }
      | (t1, false) => nsLoop rest { t1 with closed := t1.closed ++ [some ns.Ino] }
    else nsLoop rest { t with closed := t.closed ++ [none] }

/-- How `ForEachNetNS` ends. -/
inductive NsRes where
  | returned (t : Thread)
  | panicked (t : Thread)
  deriving DecidableEq, Repr

/-- `ForEachNetNS`: `allNs` is the result of `ReadAllNetNameSpaces`, `oriOk` whether
`GetCurrentNetNSHandler` succeeds (the handle then names the namespace the thread
is in), `restoreOk` whether the final `SetNetNs(oriNetNS)` succeeds. -/
def ForEachNetNS (allNs : Option (List NameSpace)) (oriOk restoreOk : Bool) (t : Thread) :
    NsRes :=
  match allNs with
  | none => .panicked t
  | some allNs =>
    if oriOk then
      let oriNetNS := t.netns
      let t1 := nsLoop allNs t
      match SetNetNs restoreOk oriNetNS t1 with
      | (t2, true) => .returned { t2 with closed := t2.closed ++ [some oriNetNS] }
      | (t2, false) => .panicked t2
    else .panicked t

/-! ## Test data -/

/-- Memory holding the listed bytes from address 0 on, zero elsewhere. -/
def memOfList (l : List Nat) : Nat → Nat := fun a => l.getD a 0

/-- A frame whose `Data` is exactly the listed bytes (`cap = len`). -/
def frameOf (ty len : Nat) (bytes : List Nat) : NetlinkMessage :=
  { Header := { Len := len, Type_ := ty, Flags := 0, Seq := 0, Pid := 0 },
    Data := { mem := memOfList bytes, ptr := 0, len := bytes.length, cap := bytes.length } }

/-- A frame whose `Data` has spare capacity behind its length. -/
def frameWithCap (ty len : Nat) (bytes : List Nat) (dlen : Nat) : NetlinkMessage :=
  { Header := { Len := len, Type_ := ty, Flags := 0, Seq := 0, Pid := 0 },
    Data := { mem := memOfList bytes, ptr := 0, len := dlen, cap := bytes.length } }

/-! ## The region as the specification describes it -/

/-- The declared attribute-region length `D = Header.Len - 16 - 72`. -/
def declaredLen (msg : NetlinkMessage) : Nat :=
  msg.Header.Len - NLMSG_HDRLEN - SizeofInetDiagMsg

/-- A length rounded up to the next multiple of 4, in exact arithmetic. -/
def roundUp4 (n : Nat) : Nat := (n + 3) / 4 * 4

/-- Walking a region from a cursor, each attribute advancing the cursor by its
length field rounded up to a multiple of 4, in exact arithmetic: the first cursor
position at or beyond `D`, if the walk gets there within the fuel. -/
def regionWalk : Nat → (Nat → Nat) → Nat → Nat → Nat → Option Nat
  | 0, _, _, _, _ => none
  | fuel + 1, mem, base, D, off =>
    if D ≤ off then some off
    else regionWalk fuel mem base D (off + roundUp4 (peek16 mem (base + off)))

/-- The walk of a frame's region from offset 0. -/
def frameWalk (fuel : Nat) (msg : NetlinkMessage) : Option Nat :=
  regionWalk fuel msg.Data.mem (msg.Data.ptr + SizeofInetDiagMsg) (declaredLen msg) 0

/-- An attribute header (`syscall.NlAttr`) together with its offset in the region. -/
structure AttrHdr where
  off : Nat
  Len : Nat
  Type_ : Nat
  deriving DecidableEq, Repr

/-- The attribute headers met when the region is walked with the decoder's 16-bit
cursor, in walking order. -/
def attrsVisited : Nat → (Nat → Nat) → Nat → Nat → Nat → List AttrHdr
  | 0, _, _, _, _ => []
  | fuel + 1, mem, base, attrSize, idx =>
    if idx < attrSize then
      { off := idx, Len := peek16 mem (base + idx), Type_ := peek16 mem (base + idx + 2) }
        :: attrsVisited fuel mem base attrSize
            ((idx + NLA_ALIGN (peek16 mem (base + idx)) NLA_ALIGNTO) % 65536)
    else []

/-- The attribute headers laid out in a region of declared length `D`, walked in
exact arithmetic: each attribute is followed by the next at its length rounded up
to a multiple of 4. -/
def attrsExact : Nat → (Nat → Nat) → Nat → Nat → Nat → List AttrHdr
  | 0, _, _, _, _ => []
  | fuel + 1, mem, base, D, off =>
    if off < D then
      { off := off, Len := peek16 mem (base + off), Type_ := peek16 mem (base + off + 2) }
        :: attrsExact fuel mem base D (off + roundUp4 (peek16 mem (base + off)))
    else []

/-- The attribute headers the decoder's 16-bit cursor meets on a frame, up to the
16-bit length it derives from the header. -/
def cursorAttrs (fuel : Nat) (msg : NetlinkMessage) : List AttrHdr :=
  attrsVisited fuel msg.Data.mem (msg.Data.ptr + SizeofInetDiagMsg) (attrSizeOf msg) 0

/-- The attributes of a frame's region: the region of declared length
`Header.Len - 16 - 72` behind the fixed diagnostic header, walked in exact
arithmetic. -/
def regionAttrs (fuel : Nat) (msg : NetlinkMessage) : List AttrHdr :=
  attrsExact fuel msg.Data.mem (msg.Data.ptr + SizeofInetDiagMsg) (declaredLen msg) 0

/-- An extended-TCP-info attribute with a non-empty payload. -/
def AttrHdr.isInfo (a : AttrHdr) : Bool := a.Type_ = INET_DIAG_INFO && 4 < a.Len

/-- The map entry that describes an attribute of a region starting at address
`base`: key, pointer to the payload, payload length. -/
def infoEntry (base : Nat) (a : AttrHdr) : Nat × InetDiagAttr :=
  (INET_DIAG_INFO,
    { ID := INET_DIAG_INFO, Val := base + a.off + 4, Size := a.Len - 4 })

/-- The last extended-TCP-info attribute with a payload, if there is one. -/
def lastInfo (l : List AttrHdr) : Option AttrHdr := (l.filter AttrHdr.isInfo).getLast?

/-! ## Records of a dump -/

/-- The record `Dump` appends for a data frame, when both parsers return. -/
def recordOf (fuel : Nat) (msg : NetlinkMessage) : Option TcpDiagInfo :=
  match ParseInetDiagMsg msg.Data with
  | none => none
  | some data =>
    match ParseInetDiagAttr fuel msg with
    | .ok attr => some { Data := data, Attrs := attr }
    | _ => none

/-- A data frame parses: `ParseInetDiagMsg` and `ParseInetDiagAttr` both return. -/
def Parses (msg : NetlinkMessage) : Prop := ∃ fuel r, recordOf fuel msg = some r

/-- The frames that precede the first end-marker. -/
def beforeDone (frames : List NetlinkMessage) : List NetlinkMessage :=
  frames.takeWhile (fun m => decide (m.Header.Type_ ≠ NLMSG_DONE))

/-- A data frame: neither an error frame nor an end-marker. -/
def IsData (msg : NetlinkMessage) : Prop :=
  msg.Header.Type_ ≠ NLMSG_ERROR ∧ msg.Header.Type_ ≠ NLMSG_DONE

/-- The code `Dump` reports for an error frame: the `int32` negation of the
embedded error field. -/
def reportedCode (msg : NetlinkMessage) : Int :=
  negInt32 (toInt32 (peek32 msg.Data.mem msg.Data.ptr))

/-! ## Frames used as concrete inputs -/

/-- The 72 bytes of a zeroed `InetDiagMsg`. -/
def hdr72 : List Nat := List.replicate 72 0

/-- A frame of 65621 bytes whose region is one attribute of length 65533
(type `INET_DIAG_MEMINFO`) that fills it exactly. -/
def stallFrame : NetlinkMessage :=
  { Header := { Len := 65621, Type_ := 20, Flags := 0, Seq := 0, Pid := 0 },
    Data := { mem := fun a => if a = 72 then 253 else if a = 73 then 255
                              else if a = 74 then 1 else 0,
              ptr := 0, len := 65605, cap := 65605 } }

/-- The region `stallFrame.Data[72:]`. -/
def stallRegion : GoSlice :=
  { mem := stallFrame.Data.mem, ptr := 72, len := 65533, cap := 65533 }

/-- A frame of 65623 bytes whose region is one attribute of length 65535. -/
def maxAttrFrame : NetlinkMessage :=
  { Header := { Len := 65623, Type_ := 20, Flags := 0, Seq := 0, Pid := 0 },
    Data := { mem := fun a => if a = 72 then 255 else if a = 73 then 255
                              else if a = 74 then 1 else 0,
              ptr := 0, len := 65607, cap := 65607 } }

/-- The region `maxAttrFrame.Data[72:]`. -/
def maxAttrRegion : GoSlice :=
  { mem := maxAttrFrame.Data.mem, ptr := 72, len := 65535, cap := 65535 }

/-- A frame declaring a 112-byte region: an 8-byte attribute, then at offset 8 an
attribute of length 65532; `Data` sits in a receive buffer of 70000 bytes. -/
def wrapFrame : NetlinkMessage :=
  { Header := { Len := 200, Type_ := 20, Flags := 0, Seq := 0, Pid := 0 },
    Data := { mem := memOfList (hdr72 ++ [8, 0, 0, 0, 108, 0, 0, 0, 252, 255, 0, 0]),
              ptr := 0, len := 184, cap := 70000 } }

/-- The frame `wrapFrame` with type `INET_DIAG_INFO` on the attribute at offset 8. -/
def wrapInfoFrame : NetlinkMessage :=
  { Header := { Len := 200, Type_ := 20, Flags := 0, Seq := 0, Pid := 0 },
    Data := { mem := memOfList (hdr72 ++ [8, 0, 0, 0, 108, 0, 0, 0, 252, 255, 2, 0]),
              ptr := 0, len := 184, cap := 70000 } }

/-- A region of 10 bytes in a buffer of 12: a 4-byte attribute, then a header
announcing 8 bytes. -/
def guardRegion : GoSlice :=
  { mem := memOfList [4, 0, 0, 0, 8, 0, 1, 0, 0, 0], ptr := 0, len := 10, cap := 12 }

/-- A frame of 65624 bytes (`Data` of 65608 bytes): its region of 65536 bytes is an
extended-TCP-info attribute of length 108 followed by one attribute of length
65428 (type `INET_DIAG_MEMINFO`) that fills the rest. -/
def truncInfoFrame : NetlinkMessage :=
  { Header := { Len := 65624, Type_ := 20, Flags := 0, Seq := 0, Pid := 0 },
    Data := { mem := fun a => if a = 72 then 108 else if a = 74 then 2
                              else if a = 180 then 148 else if a = 181 then 255
                              else if a = 182 then 1 else 0,
              ptr := 0, len := 65608, cap := 65608 } }

/-- A frame of 65632 bytes: its region of 65544 bytes starts with one 8-byte
attribute and is zero after it. -/
def truncFrame : NetlinkMessage :=
  { Header := { Len := 65632, Type_ := 20, Flags := 0, Seq := 0, Pid := 0 },
    Data := { mem := memOfList (hdr72 ++ [8, 0, 0, 0]),
              ptr := 0, len := 65616, cap := 65616 } }

/-- A frame declaring a 108-byte region of which `Data` holds 4 bytes; the
attribute is an extended-TCP-info of length 108. -/
def shortInfoFrame : NetlinkMessage :=
  frameWithCap 20 196 (hdr72 ++ [108, 0, 2, 0] ++ List.replicate 104 0) 76

/-- A frame declaring a 4-byte region of which `Data` holds 1 byte; `hi` is the byte
that follows `Data` in memory. -/
def oneByteFrame (hi : Nat) : NetlinkMessage :=
  { Header := { Len := 92, Type_ := 20, Flags := 0, Seq := 0, Pid := 0 },
    Data := { mem := memOfList (hdr72 ++ [4, hi]), ptr := 0, len := 73, cap := 73 } }

/-- A region declaring length 8 of which 4 bytes are readable, in a buffer with
spare capacity. -/
def declared8Readable4 : NetlinkMessage :=
  frameWithCap 20 96 (hdr72 ++ [8, 0, 1, 0, 0, 0, 0, 0]) 76

/-- A region declaring length 8 of which 6 bytes are readable, no spare capacity. -/
def declared8Readable6 : NetlinkMessage :=
  frameOf 20 96 (hdr72 ++ [4, 0, 0, 0, 4, 0])

/-- A region declaring length 8 of which 4 bytes are readable, no spare capacity. -/
def scenarioD : NetlinkMessage :=
  frameOf 20 96 (hdr72 ++ [4, 0, 0, 0])

/-- A data frame with an empty attribute region. -/
def dataFrame : NetlinkMessage := frameOf 20 88 hdr72

/-- A data frame whose region is one extended-TCP-info attribute of 104 bytes. -/
def infoFrame : NetlinkMessage :=
  frameOf 20 196 (hdr72 ++ [108, 0, 2, 0] ++ List.replicate 104 0)

/-- An end-marker frame. -/
def doneFrame : NetlinkMessage := frameOf NLMSG_DONE 20 [0, 0, 0, 0]

/-- An error frame whose embedded `int32` is -13. -/
def eaccesFrame : NetlinkMessage := frameOf NLMSG_ERROR 36 [243, 255, 255, 255]

/-- The request `Dump` builds for process 4321, with a stale length and a
sequence number left by the caller. -/
def sampleRequest : NetlinkRequest :=
  { Nlh := { Len := 999, Type_ := SOCK_DIAG_BY_FAMILY, Flags := NLM_F_DUMP ||| NLM_F_REQUEST,
             Seq := 7, Pid := 4321 },
    Data := NewInetDiagReqV2 AF_INET IPPROTO_TCP TCP_STATE_FLAG_ALL }

/-- A request in which every field of the payload, the socket identity included,
holds a value of its own. -/
def probeRequest : NetlinkRequest :=
  { Nlh := { Len := 5, Type_ := 20, Flags := 769, Seq := 3405691582, Pid := 4321 },
    Data :=
      { SDiagFamily := 2, SDiagProtocol := 6, IDiagExt := 14, Pad := 9,
        IDiagStates := 8191,
        Id := { IDiagSPort := 4660, IDiagDPort := 22136,
                IDiagSrc := (⟨10, 11, 12, 13⟩, ⟨14, 15, 16, 17⟩, ⟨18, 19, 20, 21⟩,
                  ⟨22, 23, 24, 25⟩),
                IDiagDst := (⟨30, 31, 32, 33⟩, ⟨34, 35, 36, 37⟩, ⟨38, 39, 40, 41⟩,
                  ⟨42, 43, 44, 45⟩),
                IDiagIf := 168496141, IDiagCookie := (286397204, 353769240) } } }

/-- Five discovered namespaces: one that cannot be opened, one that cannot be
entered, one whose visit succeeds, one whose visit fails, one more. -/
def sampleNamespaces : List NameSpace :=
  [ { Ino := 2, openOk := false, setnsOk := true, visit := fun n => (n, false) },
    { Ino := 3, openOk := true, setnsOk := false, visit := fun n => (n, false) },
    { Ino := 4, openOk := true, setnsOk := true, visit := fun n => (n, false) },
    { Ino := 5, openOk := true, setnsOk := true, visit := fun n => (n, true) },
    { Ino := 6, openOk := true, setnsOk := true, visit := fun n => (n, false) } ]

/-- A socket whose send succeeds and whose receive yields the given frames. -/
def sockOf (frames : List NetlinkMessage) : NetLinkSocket :=
  { send := fun _ => none, receive := .ok frames }

/-! ## Arithmetic of the 16-bit cursor -/

/-- Masking a 16-bit value with `0xFFFC` clears its two low bits. -/
theorem land_65532 (x : Nat) (hx : x < 65536) : x &&& 65532 = x / 4 * 4 := by
  apply Nat.eq_of_testBit_eq
  intro i
  rw [Nat.testBit_land]
  have h2 : x / 4 * 4 = (x >>> 2) <<< 2 := by
    rw [Nat.shiftRight_eq_div_pow, Nat.shiftLeft_eq]
  rw [h2, Nat.testBit_shiftLeft, Nat.testBit_shiftRight]
  by_cases hi : i < 16
  · interval_cases i <;> simp [Nat.testBit]
  · have hx' : x.testBit i = false := by
      apply Nat.testBit_eq_false_of_lt
      calc x < 2 ^ 16 := by simpa using hx
        _ ≤ 2 ^ i := Nat.pow_le_pow_right (by norm_num) (by omega)
    have h3 : 2 + (i - 2) = i := by omega
    simp [hx', h3]

/-- `NLA_ALIGN(size, 4)` in arithmetic form: the wrapped sum, rounded down. -/
theorem NLA_ALIGN_four (size : Nat) :
    NLA_ALIGN size NLA_ALIGNTO = (size + 3) % 65536 / 4 * 4 := by
  unfold NLA_ALIGN NLA_ALIGNTO
  have h1 : (65536 + (size + 4) - 1) % 65536 = (size + 3) % 65536 := by omega
  have h2 : 65535 - (65536 + 4 - 1) % 65536 = 65532 := by norm_num
  rw [h1, h2]
  exact land_65532 _ (Nat.mod_lt _ (by norm_num))

theorem peek16_lt (mem : Nat → Nat) (a : Nat) : peek16 mem a < 65536 := by
  unfold peek16
  omega

/-- Types other than `INET_DIAG_INFO` leave the map alone and cannot fail. -/
theorem attrSwitch_other (t : Nat) (d : GoSlice) (ret : AttrMap) (ht : t ≠ 2) :
    attrSwitch t d ret = .ok ret := by
  unfold attrSwitch
  split <;> first | rfl | exact absurd rfl ht

/-- What a completed pass through the loop body tells about the attribute it read. -/
theorem attrStep_next {raw : GoSlice} {A idx idx' : Nat} {ret ret' : AttrMap}
    (h : attrStep raw A idx ret = .next idx' ret') :
    idx < raw.len ∧ (idx + 4) % 65536 ≤ A ∧
    4 ≤ peek16 raw.mem (raw.ptr + idx) ∧
    idx' = (idx + NLA_ALIGN (peek16 raw.mem (raw.ptr + idx)) NLA_ALIGNTO) % 65536 ∧
    (peek16 raw.mem (raw.ptr + idx) = 4 → ret' = ret) ∧
    (peek16 raw.mem (raw.ptr + idx) ≠ 4 →
      peek16 raw.mem (raw.ptr + idx) ≤ raw.cap - idx ∧
      attrSwitch (peek16 raw.mem (raw.ptr + idx + 2))
        { mem := raw.mem, ptr := raw.ptr + idx + 4,
          len := peek16 raw.mem (raw.ptr + idx) - 4, cap := raw.cap - idx - 4 } ret
        = .ok ret') := by
  have hL := peek16_lt raw.mem (raw.ptr + idx)
  unfold attrStep at h
  split at h
  · cases h
  · rename_i rawAttr hr
    unfold GoSlice.sliceFrom at hr
    split at hr
    · rename_i hle
      cases hr
      split at h
      · cases h
      · rename_i attr ha
        unfold GoSlice.addr0 at ha
        split at ha
        · rename_i hpos
          cases ha
          unfold NLA_HDRLEN at h
          dsimp only at h hpos
          split at h
          · cases h
          · rename_i hchk
            split at h
            · rename_i hz
              cases h
              have hL4 : peek16 raw.mem (raw.ptr + idx) = 4 := by omega
              refine ⟨by omega, by omega, by omega, ?_, fun _ => rfl, fun hne => absurd hL4 hne⟩
              rw [hL4, NLA_ALIGN_four]
            · rename_i hnz
              split at h
              · cases h
              · rename_i attrData hd
                unfold GoSlice.slice at hd
                split at hd
                · rename_i hb
                  cases hd
                  dsimp only at hb
                  have hhigh : (4 + (65536 + peek16 raw.mem (raw.ptr + idx) - 4) % 65536) % 65536
                      = peek16 raw.mem (raw.ptr + idx) := by omega
                  rw [hhigh] at hb h
                  split at h
                  · rename_i r hs
                    cases h
                    refine ⟨by omega, by omega, by omega, rfl, fun h4 => ?_, fun _ => ⟨by omega, ?_⟩⟩
                    · exact absurd h4 (by omega)
                    · rw [← hs]
                  · cases h
                · cases hd
        · cases ha
    · cases hr

/-! ## Fuel -/

/-- A walk that ends within some fuel ends the same way with more. -/
theorem attrLoop_mono {fuel : Nat} {raw : GoSlice} {A idx : Nat} {ret : AttrMap}
    {r : Res AttrMap} (h : attrLoop fuel raw A idx ret = r) (hr : r ≠ .spin)
    (k : Nat) : attrLoop (fuel + k) raw A idx ret = r := by
  induction fuel generalizing idx ret with
  | zero => exact absurd h.symm hr
  | succ n ih =>
    rw [Nat.add_right_comm]
    unfold attrLoop at h ⊢
    split
    · rename_i hlt
      rw [if_pos hlt] at h
      split
      · rename_i idx' ret' hs
        rw [hs] at h
        exact ih h
      · rename_i p hs
        rw [hs] at h
        exact h
    · rename_i hlt
      rw [if_neg hlt] at h
      exact h

theorem ParseInetDiagAttr_eq (fuel : Nat) (msg : NetlinkMessage) :
    ParseInetDiagAttr fuel msg =
      if attrSizeOf msg = 0 then .ok []
      else
        match msg.Data.sliceFrom SizeofInetDiagMsg with
        | none => .panic .sliceBounds
        | some rawAttrs => attrLoop fuel rawAttrs (attrSizeOf msg) 0 [] := rfl

theorem ParseInetDiagAttr_mono {fuel : Nat} {msg : NetlinkMessage} {r : Res AttrMap}
    (h : ParseInetDiagAttr fuel msg = r) (hr : r ≠ .spin) (k : Nat) :
    ParseInetDiagAttr (fuel + k) msg = r := by
  rw [ParseInetDiagAttr_eq] at h ⊢
  split
  · rename_i hz
    rw [if_pos hz] at h
    exact h
  · rename_i hz
    rw [if_neg hz] at h
    split
    · rename_i hs
      rw [hs] at h
      exact h
    · rename_i raw hs
      rw [hs] at h
      exact attrLoop_mono h hr k

/-! ## The 16-bit cursor: stall, wrap-around, truncation -/

/-- The region of `stallFrame` is what `ParseInetDiagAttr` slices off `msg.Data`. -/
theorem stallFrame_region :
    stallFrame.Data.sliceFrom SizeofInetDiagMsg = some stallRegion := by
  rfl

/-- C9 — the attribute walk is not total: on a frame whose region is one attribute
with length field 65533 (payload 65529 bytes, fitting the region exactly) the loop
body leaves the cursor at 0, so `ParseInetDiagAttr` neither returns a map nor
fails, whatever the fuel. -/
theorem ParseInetDiagAttr_stalls :
    attrStep stallRegion (attrSizeOf stallFrame) 0 [] = .next 0 [] ∧
    ∀ fuel, ParseInetDiagAttr fuel stallFrame = .spin := by
  have hstep : attrStep stallRegion 65533 0 [] = .next 0 [] := by decide
  refine ⟨hstep, fun fuel => ?_⟩
  have hloop : ∀ n, attrLoop n stallRegion 65533 0 [] = .spin := by
    intro n
    induction n with
    | zero => rfl
    | succ n ih =>
      unfold attrLoop
      rw [if_pos (by decide), hstep]
      exact ih
  have hp : ParseInetDiagAttr fuel stallFrame = attrLoop fuel stallRegion 65533 0 [] := rfl
  rw [hp]
  exact hloop fuel

/-- C3 — for payload sizes above 65528 the cursor advance is not the rounded-up
length: an attribute with length field 65535 (payload 65531) advances the cursor
by `NLA_ALIGN 65535 4 = 0`, where 4 + 65531 rounded up to a multiple of 4 is 65536. -/
theorem attrStep_advance_overflows :
    maxAttrFrame.Data.sliceFrom SizeofInetDiagMsg = some maxAttrRegion ∧
    attrStep maxAttrRegion (attrSizeOf maxAttrFrame) 0 [] = .next 0 [] ∧
    NLA_ALIGN 65535 NLA_ALIGNTO = 0 ∧ roundUp4 (4 + 65531) = 65536 :=
  ⟨rfl, by decide⟩

/-- The advance of the cursor is the rounded-up length for every payload size up
to 65528, decoded or skipped. -/
theorem attrStep_advance {raw : GoSlice} {A idx idx' : Nat} {ret ret' : AttrMap}
    (h : attrStep raw A idx ret = .next idx' ret')
    (hp : peek16 raw.mem (raw.ptr + idx) - 4 ≤ 65528) :
    idx' = (idx + roundUp4 (4 + (peek16 raw.mem (raw.ptr + idx) - 4))) % 65536 := by
  obtain ⟨_, _, h4, hi, _, _⟩ := attrStep_next h
  rw [hi, NLA_ALIGN_four]
  unfold roundUp4
  have e1 : 4 + (peek16 raw.mem (raw.ptr + idx) - 4) = peek16 raw.mem (raw.ptr + idx) := by
    omega
  have e2 : (peek16 raw.mem (raw.ptr + idx) + 3) % 65536
      = peek16 raw.mem (raw.ptr + idx) + 3 := by omega
  rw [e1, e2]

/-- C1 — a map is returned although the walk of the region does not land on the
declared length: on `wrapFrame` (declared length 112) the exact walk goes 0, 8,
65540 while the 16-bit cursor wraps to 4 and then lands on 112; on `truncFrame`
(declared length 65544) the length is cut to 8 and decoding stops after the first
attribute. -/
theorem ParseInetDiagAttr_accepts_overrun :
    (declaredLen wrapFrame = 112 ∧ frameWalk 3 wrapFrame = some 65540 ∧
      ParseInetDiagAttr 4 wrapFrame = .ok []) ∧
    (declaredLen truncFrame = 65544 ∧ attrSizeOf truncFrame = 8 ∧
      ParseInetDiagAttr 2 truncFrame = .ok []) := by
  decide

/-! ## Dump -/

theorem recordOf_inv {fuel : Nat} {msg : NetlinkMessage} {r : TcpDiagInfo}
    (h : recordOf fuel msg = some r) :
    ∃ d a, ParseInetDiagMsg msg.Data = some d ∧ ParseInetDiagAttr fuel msg = .ok a
      ∧ r = { Data := d, Attrs := a } := by
  cases hd : ParseInetDiagMsg msg.Data with
  | none =>
    rw [recordOf, hd] at h
    cases h
  | some d =>
    cases ha : ParseInetDiagAttr fuel msg with
    | ok a =>
      rw [recordOf, hd, ha] at h
      cases h
      exact ⟨d, a, rfl, rfl, rfl⟩
    | panic p =>
      rw [recordOf, hd, ha] at h
      cases h
    | spin =>
      rw [recordOf, hd, ha] at h
      cases h

theorem recordOf_mono {fuel : Nat} {msg : NetlinkMessage} {r : TcpDiagInfo}
    (h : recordOf fuel msg = some r) (fuel' : Nat) (hf : fuel ≤ fuel') :
    recordOf fuel' msg = some r := by
  obtain ⟨d, a, hd, ha, rfl⟩ := recordOf_inv h
  obtain ⟨k, rfl⟩ := Nat.exists_eq_add_of_le hf
  have ha' := ParseInetDiagAttr_mono ha (by intro hc; cases hc) k
  rw [recordOf, hd, ha']

theorem dumpLoop_cons (fuel : Nat) (msg : NetlinkMessage) (rest : List NetlinkMessage)
    (infos : List TcpDiagInfo) :
    dumpLoop fuel (msg :: rest) infos =
      if msg.Header.Type_ = NLMSG_ERROR then
        match msg.Data.addr0 with
        | none => .panicked infos .indexRange
        | some msgerr =>
          .returned infos (some (.netlink (negInt32 (toInt32 (peek32 msg.Data.mem msgerr)))))
      else if msg.Header.Type_ = NLMSG_DONE then .returned infos none
      else
        match ParseInetDiagMsg msg.Data with
        | none => .panicked infos .indexRange
        | some data =>
          match ParseInetDiagAttr fuel msg with
          | .ok attr => dumpLoop fuel rest (infos ++ [{ Data := data, Attrs := attr }])
          | .panic p => .panicked infos p
          | .spin => .spin infos := rfl

theorem dumpLoop_nil (fuel : Nat) (infos : List TcpDiagInfo) :
    dumpLoop fuel [] infos = .returned infos none := rfl

/-- One data frame that parses: the loop appends its record and goes on. -/
theorem dumpLoop_data {fuel : Nat} {msg : NetlinkMessage} {r : TcpDiagInfo}
    (rest : List NetlinkMessage) (infos : List TcpDiagInfo)
    (hd : IsData msg) (hr : recordOf fuel msg = some r) :
    dumpLoop fuel (msg :: rest) infos = dumpLoop fuel rest (infos ++ [r]) := by
  obtain ⟨d, a, hd', ha, rfl⟩ := recordOf_inv hr
  rw [dumpLoop_cons, if_neg hd.1, if_neg hd.2, hd', ha]

/-- The loop of `Dump` on a sequence without an error frame before its first
end-marker. -/
theorem dumpLoop_ok (frames : List NetlinkMessage) (infos : List TcpDiagInfo)
    (hne : ∀ m ∈ beforeDone frames, m.Header.Type_ ≠ NLMSG_ERROR)
    (hp : ∀ m ∈ beforeDone frames, Parses m) :
    ∃ recs fuel₀,
      List.Forall₂ (fun m r => ∃ f, recordOf f m = some r) (beforeDone frames) recs ∧
      ∀ fuel, fuel₀ ≤ fuel → dumpLoop fuel frames infos = .returned (infos ++ recs) none := by
  induction frames generalizing infos with
  | nil =>
    exact ⟨[], 0, List.Forall₂.nil, fun fuel _ => by rw [dumpLoop_nil, List.append_nil]⟩
  | cons m rest ih =>
    by_cases hdone : m.Header.Type_ = NLMSG_DONE
    · refine ⟨[], 0, ?_, fun fuel _ => ?_⟩
      · simp [beforeDone, List.takeWhile, hdone]
      · have hne2 : m.Header.Type_ ≠ NLMSG_ERROR := by rw [hdone]; decide
        rw [dumpLoop_cons, if_neg hne2, if_pos hdone, List.append_nil]
    · have hb : beforeDone (m :: rest) = m :: beforeDone rest := by
        simp [beforeDone, List.takeWhile, hdone]
      rw [hb] at hne hp ⊢
      have hne2 := hne m (List.mem_cons_self _ _)
      obtain ⟨f, r, hr⟩ := hp m (List.mem_cons_self _ _)
      obtain ⟨recs, f₀, hrel, hrun⟩ := ih (infos ++ [r])
        (fun x hx => hne x (List.mem_cons_of_mem _ hx))
        (fun x hx => hp x (List.mem_cons_of_mem _ hx))
      refine ⟨r :: recs, max f f₀, List.Forall₂.cons ⟨f, hr⟩ hrel, fun fuel hfuel => ?_⟩
      rw [dumpLoop_data rest infos ⟨hne2, hdone⟩
        (recordOf_mono hr fuel (le_trans (le_max_left _ _) hfuel)),
        hrun fuel (le_trans (le_max_right _ _) hfuel), List.append_assoc]
      rfl

/-- C4 — when no error frame precedes the first end-marker and the data frames
before it parse, `Dump` returns nil having appended exactly one record per data
frame that precedes the first end-marker, in frame order; without an end-marker
that is every frame. -/
theorem Dump_ok (sock : NetLinkSocket) (pid : Nat) (frames : List NetlinkMessage)
    (infos : List TcpDiagInfo)
    (hsend : ∀ b, sock.send b = none) (hrecv : sock.receive = .ok frames)
    (hne : ∀ m ∈ beforeDone frames, m.Header.Type_ ≠ NLMSG_ERROR)
    (hp : ∀ m ∈ beforeDone frames, Parses m) :
    ∃ recs fuel₀,
      List.Forall₂ (fun m r => ∃ f, recordOf f m = some r) (beforeDone frames) recs ∧
      ∀ fuel, fuel₀ ≤ fuel → Dump fuel sock pid infos = .returned (infos ++ recs) none := by
  obtain ⟨recs, f₀, hrel, hrun⟩ := dumpLoop_ok frames infos hne hp
  refine ⟨recs, f₀, hrel, fun fuel hf => ?_⟩
  unfold Dump
  simp only [hsend, hrecv]
  exact hrun fuel hf

/-- The two end-to-end dumps: two data frames and an end-marker, one data frame alone. -/
theorem Dump_scenarios :
    Dump 2 (sockOf [dataFrame, infoFrame, doneFrame]) 1 []
      = .returned [{ Data := 0, Attrs := [] },
                   { Data := 0, Attrs := [(2, { ID := 2, Val := 76, Size := 104 })] }] none ∧
    Dump 2 (sockOf [dataFrame]) 1 [] = .returned [{ Data := 0, Attrs := [] }] none := by
  decide

/-- Witness of `Dump_ok`: two data frames followed by an end-marker. -/
theorem Dump_ok_witness :
    (∀ m ∈ beforeDone [dataFrame, infoFrame, doneFrame], m.Header.Type_ ≠ NLMSG_ERROR) ∧
    (∀ m ∈ beforeDone [dataFrame, infoFrame, doneFrame], Parses m) ∧
    ∃ recs fuel₀,
      List.Forall₂ (fun m r => ∃ f, recordOf f m = some r)
        (beforeDone [dataFrame, infoFrame, doneFrame]) recs ∧
      ∀ fuel, fuel₀ ≤ fuel →
        Dump fuel (sockOf [dataFrame, infoFrame, doneFrame]) 1 [] = .returned ([] ++ recs) none := by
  have hb : beforeDone [dataFrame, infoFrame, doneFrame] = [dataFrame, infoFrame] := by
    simp [beforeDone, List.takeWhile, dataFrame, infoFrame, doneFrame, frameOf, NLMSG_DONE]
  have h1 : ∀ m ∈ beforeDone [dataFrame, infoFrame, doneFrame],
      m.Header.Type_ ≠ NLMSG_ERROR := by
    intro m hm
    rw [hb] at hm
    simp only [List.mem_cons, List.mem_singleton, List.not_mem_nil, or_false] at hm
    rcases hm with rfl | rfl <;> decide
  have h2 : ∀ m ∈ beforeDone [dataFrame, infoFrame, doneFrame], Parses m := by
    intro m hm
    rw [hb] at hm
    simp only [List.mem_cons, List.mem_singleton, List.not_mem_nil, or_false] at hm
    rcases hm with rfl | rfl
    · exact ⟨2, _, rfl⟩
    · exact ⟨2, _, rfl⟩
  exact ⟨h1, h2, Dump_ok (sockOf [dataFrame, infoFrame, doneFrame]) 1
    [dataFrame, infoFrame, doneFrame] [] (fun _ => rfl) rfl h1 h2⟩


/-- The loop of `Dump` over a run of data frames that parse. -/
theorem dumpLoop_prefix (pre : List NetlinkMessage)
    (hpre : ∀ m ∈ pre, IsData m ∧ Parses m) :
    ∃ recs fuel₀,
      List.Forall₂ (fun m r => ∃ f, recordOf f m = some r) pre recs ∧
      ∀ fuel, fuel₀ ≤ fuel → ∀ rest infos,
        dumpLoop fuel (pre ++ rest) infos = dumpLoop fuel rest (infos ++ recs) := by
  induction pre with
  | nil =>
    exact ⟨[], 0, List.Forall₂.nil, fun fuel _ rest infos => by
      rw [List.nil_append, List.append_nil]⟩
  | cons m pre ih =>
    obtain ⟨hd, f, r, hr⟩ := hpre m (List.mem_cons_self _ _)
    obtain ⟨recs, f₀, hrel, hrun⟩ := ih (fun x hx => hpre x (List.mem_cons_of_mem _ hx))
    refine ⟨r :: recs, max f f₀, List.Forall₂.cons ⟨f, hr⟩ hrel, fun fuel hfuel rest infos => ?_⟩
    rw [List.cons_append, dumpLoop_data (pre ++ rest) infos hd
      (recordOf_mono hr fuel (le_trans (le_max_left _ _) hfuel)),
      hrun fuel (le_trans (le_max_right _ _) hfuel), List.append_assoc]
    rfl

/-- Negation on `int32` is the exact negation away from the minimum. -/
theorem negInt32_eq (x : Int) (h1 : -2147483648 < x) (h2 : x < 2147483648) :
    negInt32 x = -x := by
  unfold negInt32
  omega

theorem toInt32_range (u : Nat) : -2147483648 ≤ toInt32 u ∧ toInt32 u < 2147483648 := by
  unfold toInt32
  split <;> omega

/-- C5 (counterexample) — a data frame followed by an error frame carrying -13:
`Dump` returns the error with code 13, and the record of the data frame has been
added to the caller's list. -/
theorem Dump_error_keeps_records :
    Dump 2 (sockOf [dataFrame, eaccesFrame]) 1 []
      = .returned [{ Data := 0, Attrs := [] }] (some (.netlink 13)) := by
  decide

/-- C5 (amended) — when the first frame that is not a data frame is an error frame
with a non-empty payload and the data frames before it parse, `Dump` stops at it
and returns a non-nil error carrying the `int32` negation of the embedded field
(the exact negation unless the field is the minimum); the records of the data
frames before the error frame stay appended to the caller's list, none is added
for later frames, and an error frame that comes first leaves the list unchanged. -/
theorem Dump_error (sock : NetLinkSocket) (pid : Nat) (pre : List NetlinkMessage)
    (err : NetlinkMessage) (rest : List NetlinkMessage) (infos : List TcpDiagInfo)
    (hsend : ∀ b, sock.send b = none) (hrecv : sock.receive = .ok (pre ++ err :: rest))
    (hpre : ∀ m ∈ pre, IsData m ∧ Parses m)
    (herr : err.Header.Type_ = NLMSG_ERROR) (hlen : 0 < err.Data.len) :
    (toInt32 (peek32 err.Data.mem err.Data.ptr) ≠ -2147483648 →
      reportedCode err = -toInt32 (peek32 err.Data.mem err.Data.ptr)) ∧
    ∃ recs fuel₀,
      List.Forall₂ (fun m r => ∃ f, recordOf f m = some r) pre recs ∧
      (pre = [] → recs = []) ∧
      ∀ fuel, fuel₀ ≤ fuel →
        Dump fuel sock pid infos
          = .returned (infos ++ recs) (some (.netlink (reportedCode err))) := by
  constructor
  · intro hmin
    have hr := toInt32_range (peek32 err.Data.mem err.Data.ptr)
    exact negInt32_eq _ (lt_of_le_of_ne hr.1 (Ne.symm hmin)) hr.2
  · obtain ⟨recs, f₀, hrel, hrun⟩ := dumpLoop_prefix pre hpre
    refine ⟨recs, f₀, hrel, ?_, fun fuel hf => ?_⟩
    · intro hnil
      subst hnil
      cases hrel
      rfl
    · have haddr : err.Data.addr0 = some err.Data.ptr := by
        unfold GoSlice.addr0
        rw [if_pos hlen]
      unfold Dump
      simp only [hsend, hrecv]
      rw [hrun fuel hf, dumpLoop_cons, if_pos herr, haddr]
      rfl

/-- Witness of `Dump_error`: two data frames, the error frame, an end-marker. -/
theorem Dump_error_witness :
    (∀ m ∈ [dataFrame, infoFrame], IsData m ∧ Parses m) ∧
    eaccesFrame.Header.Type_ = NLMSG_ERROR ∧ 0 < eaccesFrame.Data.len ∧
    ((toInt32 (peek32 eaccesFrame.Data.mem eaccesFrame.Data.ptr) ≠ -2147483648 →
      reportedCode eaccesFrame = -toInt32 (peek32 eaccesFrame.Data.mem eaccesFrame.Data.ptr)) ∧
    ∃ recs fuel₀,
      List.Forall₂ (fun m r => ∃ f, recordOf f m = some r) [dataFrame, infoFrame] recs ∧
      ([dataFrame, infoFrame] = [] → recs = []) ∧
      ∀ fuel, fuel₀ ≤ fuel →
        Dump fuel (sockOf ([dataFrame, infoFrame] ++ eaccesFrame :: [doneFrame])) 1 []
          = .returned ([] ++ recs) (some (.netlink (reportedCode eaccesFrame)))) := by
  have h1 : ∀ m ∈ [dataFrame, infoFrame], IsData m ∧ Parses m := by
    intro m hm
    simp only [List.mem_cons, List.mem_singleton, List.not_mem_nil, or_false] at hm
    rcases hm with rfl | rfl
    · exact ⟨⟨by decide, by decide⟩, 2, _, rfl⟩
    · exact ⟨⟨by decide, by decide⟩, 2, _, rfl⟩
  exact ⟨h1, rfl, by decide, Dump_error (sockOf ([dataFrame, infoFrame] ++ eaccesFrame :: [doneFrame]))
    1 [dataFrame, infoFrame] eaccesFrame [doneFrame] [] (fun _ => rfl) rfl h1 rfl (by decide)⟩

/-! ## Serialize -/

theorem le16_length (v : Nat) : (le16 v).length = 2 := rfl

theorem le32_length (v : Nat) : (le32 v).length = 4 := rfl

theorem NlMsghdr_image_length (h : NlMsghdr) : h.image.length = 16 := rfl

theorem InetDiagSockId_image_length (i : InetDiagSockId) : i.image.length = 48 := rfl

theorem InetDiagReqV2_image_length (r : InetDiagReqV2) : r.image.length = 56 := rfl

/-- The buffer `Serialize` returns is the image of the header with the computed
length, followed by the image of the payload. -/
theorem Serialize_bytes (req : NetlinkRequest) :
    (Serialize req).2
      = ({ req.Nlh with Len := 72 } : NlMsghdr).image ++ req.Data.image := by
  rfl

/-- C6 — `Serialize` returns exactly 72 bytes, for every request and whatever the
caller left in `Nlh.Len`: the 16-byte transport header in host order (4-byte
length, 2-byte type, 2-byte flags, 4-byte sequence, 4-byte sender id) followed by
the 56-byte payload, byte for byte the family, the protocol, the extension flags,
the pad, the 4-byte state bitmask and the 48-byte socket identity (2+2 bytes of
ports, 4×4 source address bytes, 4×4 destination address bytes, the 4-byte
interface index, the 8-byte cookie); the header read back has the original type,
flags, sequence and sender id and the length 72, which is also what `Serialize`
stores in the request. -/
theorem Serialize_roundtrip (req : NetlinkRequest)
    (hT : req.Nlh.Type_ < 65536) (hF : req.Nlh.Flags < 65536)
    (hS : req.Nlh.Seq < 4294967296) (hP : req.Nlh.Pid < 4294967296) :
    (Serialize req).2.length = 72 ∧
    parseNlMsghdr (Serialize req).2
      = some { Len := 72, Type_ := req.Nlh.Type_, Flags := req.Nlh.Flags,
               Seq := req.Nlh.Seq, Pid := req.Nlh.Pid } ∧
    (Serialize req).2.take 16
      = [72, 0, 0, 0,
         byteOf req.Nlh.Type_ 0, byteOf req.Nlh.Type_ 1,
         byteOf req.Nlh.Flags 0, byteOf req.Nlh.Flags 1,
         byteOf req.Nlh.Seq 0, byteOf req.Nlh.Seq 1, byteOf req.Nlh.Seq 2,
         byteOf req.Nlh.Seq 3,
         byteOf req.Nlh.Pid 0, byteOf req.Nlh.Pid 1, byteOf req.Nlh.Pid 2,
         byteOf req.Nlh.Pid 3] ∧
    (Serialize req).2.drop 16
      = [byteOf req.Data.SDiagFamily 0, byteOf req.Data.SDiagProtocol 0,
         byteOf req.Data.IDiagExt 0, byteOf req.Data.Pad 0,
         byteOf req.Data.IDiagStates 0, byteOf req.Data.IDiagStates 1,
         byteOf req.Data.IDiagStates 2, byteOf req.Data.IDiagStates 3,
         byteOf req.Data.Id.IDiagSPort 0, byteOf req.Data.Id.IDiagSPort 1,
         byteOf req.Data.Id.IDiagDPort 0, byteOf req.Data.Id.IDiagDPort 1,
         byteOf req.Data.Id.IDiagSrc.1.b0 0, byteOf req.Data.Id.IDiagSrc.1.b1 0,
         byteOf req.Data.Id.IDiagSrc.1.b2 0, byteOf req.Data.Id.IDiagSrc.1.b3 0,
         byteOf req.Data.Id.IDiagSrc.2.1.b0 0, byteOf req.Data.Id.IDiagSrc.2.1.b1 0,
         byteOf req.Data.Id.IDiagSrc.2.1.b2 0, byteOf req.Data.Id.IDiagSrc.2.1.b3 0,
         byteOf req.Data.Id.IDiagSrc.2.2.1.b0 0, byteOf req.Data.Id.IDiagSrc.2.2.1.b1 0,
         byteOf req.Data.Id.IDiagSrc.2.2.1.b2 0, byteOf req.Data.Id.IDiagSrc.2.2.1.b3 0,
         byteOf req.Data.Id.IDiagSrc.2.2.2.b0 0, byteOf req.Data.Id.IDiagSrc.2.2.2.b1 0,
         byteOf req.Data.Id.IDiagSrc.2.2.2.b2 0, byteOf req.Data.Id.IDiagSrc.2.2.2.b3 0,
         byteOf req.Data.Id.IDiagDst.1.b0 0, byteOf req.Data.Id.IDiagDst.1.b1 0,
         byteOf req.Data.Id.IDiagDst.1.b2 0, byteOf req.Data.Id.IDiagDst.1.b3 0,
         byteOf req.Data.Id.IDiagDst.2.1.b0 0, byteOf req.Data.Id.IDiagDst.2.1.b1 0,
         byteOf req.Data.Id.IDiagDst.2.1.b2 0, byteOf req.Data.Id.IDiagDst.2.1.b3 0,
         byteOf req.Data.Id.IDiagDst.2.2.1.b0 0, byteOf req.Data.Id.IDiagDst.2.2.1.b1 0,
         byteOf req.Data.Id.IDiagDst.2.2.1.b2 0, byteOf req.Data.Id.IDiagDst.2.2.1.b3 0,
         byteOf req.Data.Id.IDiagDst.2.2.2.b0 0, byteOf req.Data.Id.IDiagDst.2.2.2.b1 0,
         byteOf req.Data.Id.IDiagDst.2.2.2.b2 0, byteOf req.Data.Id.IDiagDst.2.2.2.b3 0,
         byteOf req.Data.Id.IDiagIf 0, byteOf req.Data.Id.IDiagIf 1,
         byteOf req.Data.Id.IDiagIf 2, byteOf req.Data.Id.IDiagIf 3,
         byteOf req.Data.Id.IDiagCookie.1 0, byteOf req.Data.Id.IDiagCookie.1 1,
         byteOf req.Data.Id.IDiagCookie.1 2, byteOf req.Data.Id.IDiagCookie.1 3,
         byteOf req.Data.Id.IDiagCookie.2 0, byteOf req.Data.Id.IDiagCookie.2 1,
         byteOf req.Data.Id.IDiagCookie.2 2, byteOf req.Data.Id.IDiagCookie.2 3] ∧
    ((Serialize req).2.drop 16).length = 56 ∧
    ((Serialize req).2.drop 24).length = 48 ∧
    (Serialize req).1.Nlh.Len = 72 ∧
    (Serialize req).1.Data = req.Data := by
  have hb := Serialize_bytes req
  have hbyte0 : ∀ v, byteOf v 0 = v % 256 := fun v => by simp [byteOf]
  have hbyte1 : ∀ v, byteOf v 1 = v / 256 % 256 := fun v => by simp [byteOf]
  have hbyte2 : ∀ v, byteOf v 2 = v / 65536 % 256 := fun v => by simp [byteOf]
  have hbyte3 : ∀ v, byteOf v 3 = v / 16777216 % 256 := fun v => by simp [byteOf]
  have hlen : (Serialize req).2.length = 72 := by
    rw [hb, List.length_append, NlMsghdr_image_length, InetDiagReqV2_image_length]
  refine ⟨hlen, ?_, ?_, ?_, ?_, ?_, rfl, rfl⟩
  · rw [hb]
    unfold parseNlMsghdr
    rw [if_neg (by rw [List.length_append, NlMsghdr_image_length, InetDiagReqV2_image_length,
      SizeofNlMsghdr]; omega)]
    simp only [NlMsghdr.image, le32, le16, get32, get16, List.cons_append, List.nil_append,
      List.getD_cons_zero, List.getD_cons_succ, List.getD_eq_getElem?_getD]
    simp
    refine ⟨?_, ?_, ?_, ?_⟩ <;> omega
  · rw [hb, List.take_left' (NlMsghdr_image_length _)]
    simp [hbyte0, hbyte1, hbyte2, hbyte3, NlMsghdr.image, le32, le16]
  · rw [hb, List.drop_left' (NlMsghdr_image_length _)]
    simp [hbyte0, hbyte1, hbyte2, hbyte3, InetDiagReqV2.image, InetDiagSockId.image, be32x4,
      Be32.image, u8, le32, le16]
  · rw [List.length_drop, hlen]
  · rw [List.length_drop, hlen]

/-- Witness of `Serialize_roundtrip`: a request whose payload fields all differ, with
a stale `Nlh.Len`; the 72 bytes are spelled out. -/
theorem Serialize_roundtrip_witness :
    (probeRequest.Nlh.Type_ < 65536 ∧ probeRequest.Nlh.Flags < 65536 ∧
      probeRequest.Nlh.Seq < 4294967296 ∧ probeRequest.Nlh.Pid < 4294967296) ∧
    (Serialize probeRequest).2
      = [72, 0, 0, 0, 20, 0, 1, 3, 190, 186, 254, 202, 225, 16, 0, 0,
         2, 6, 14, 9, 255, 31, 0, 0,
         52, 18, 120, 86,
         10, 11, 12, 13, 14, 15, 16, 17, 18, 19, 20, 21, 22, 23, 24, 25,
         30, 31, 32, 33, 34, 35, 36, 37, 38, 39, 40, 41, 42, 43, 44, 45,
         13, 12, 11, 10, 20, 19, 18, 17, 24, 23, 22, 21] ∧
    (Serialize probeRequest).2.length = 72 ∧
    parseNlMsghdr (Serialize probeRequest).2
      = some { Len := 72, Type_ := probeRequest.Nlh.Type_, Flags := probeRequest.Nlh.Flags,
               Seq := probeRequest.Nlh.Seq, Pid := probeRequest.Nlh.Pid } :=
  ⟨by decide, by decide,
    (Serialize_roundtrip probeRequest (by decide) (by decide) (by decide) (by decide)).1,
    (Serialize_roundtrip probeRequest (by decide) (by decide) (by decide) (by decide)).2.1⟩

/-- The bytes of the serialised sample request. -/
theorem Serialize_sample :
    (Serialize sampleRequest).2
      = [72, 0, 0, 0, 20, 0, 1, 3, 7, 0, 0, 0, 225, 16, 0, 0,
         2, 6, 14, 0, 255, 31, 0, 0] ++ List.replicate 48 0 := by
  decide

/-! ## ForEachNetNS -/

/-- C10 — whenever `ForEachNetNS` returns, whatever entry failures occurred and
whether or not a visitor failure stopped the loop, the last `Setns` it made was a
successful one into the namespace captured before the loop, and the thread is in
that namespace; when the restoring `Setns` fails it panics instead of returning. -/
theorem ForEachNetNS_restores (allNs : Option (List NameSpace)) (oriOk restoreOk : Bool)
    (t : Thread) :
    (∀ t', ForEachNetNS allNs oriOk restoreOk t = .returned t' →
      t'.netns = t.netns ∧ t'.switches.getLast? = some (t.netns, true)) ∧
    (restoreOk = false → ∃ t', ForEachNetNS allNs oriOk restoreOk t = .panicked t') := by
  cases allNs with
  | none => exact ⟨fun t' h => (by cases h), fun _ => ⟨t, rfl⟩⟩
  | some l =>
    cases oriOk with
    | false => exact ⟨fun t' h => (by cases h), fun _ => ⟨t, rfl⟩⟩
    | true =>
      cases restoreOk with
      | false =>
        refine ⟨fun t' h => ?_, fun _ => ⟨_, rfl⟩⟩
        simp [ForEachNetNS, SetNetNs] at h
      | true =>
        refine ⟨fun t' h => ?_, fun hc => by cases hc⟩
        simp only [ForEachNetNS, SetNetNs, if_true] at h
        cases h
        simp

/-- Witness of `ForEachNetNS_restores`: an open failure, a `Setns` failure, a visit
that succeeds, a visit that fails and stops the loop, a namespace never reached. -/
theorem ForEachNetNS_restores_witness :
    ForEachNetNS (some sampleNamespaces) true true { netns := 1, switches := [], closed := [] }
      = .returned
          { netns := 1,
            switches := [(3, false), (4, true), (5, true), (1, true)],
            closed := [none, some 3, some 4, some 5, some 1] } ∧
    ∃ t', ForEachNetNS (some sampleNamespaces) true true
        { netns := 1, switches := [], closed := [] } = .returned t' ∧
      t'.netns = 1 ∧ t'.switches.getLast? = some (1, true) :=
  ⟨rfl, _, rfl, (ForEachNetNS_restores (some sampleNamespaces) true true
    { netns := 1, switches := [], closed := [] }).1 _ rfl⟩

/-! ## Regions shorter than declared, reads past the region -/

theorem attrLoop_succ (fuel : Nat) (raw : GoSlice) (A idx : Nat) (ret : AttrMap) :
    attrLoop (fuel + 1) raw A idx ret =
      if idx < A then
        match attrStep raw A idx ret with
        | .next idx' ret' => attrLoop fuel raw A idx' ret'
        | .panic p => .panic p
      else if idx ≠ A then .panic .sizeErr
      else .ok ret := rfl

/-- A walk over a region without spare capacity that is at least 4 bytes shorter
than declared ends in a panic. -/
theorem attrLoop_short (raw : GoSlice) (A : Nat) (hcap : raw.cap = raw.len)
    (hA : raw.len + 4 ≤ A) (hA16 : A < 65536) :
    ∀ fuel idx ret, idx ≤ raw.len + 3 → raw.len + 4 - idx ≤ fuel →
      ∃ p, attrLoop fuel raw A idx ret = .panic p := by
  intro fuel
  induction fuel with
  | zero =>
    intro idx ret h1 h2
    omega
  | succ k ih =>
    intro idx ret h1 h2
    rw [attrLoop_succ, if_pos (by omega)]
    cases hs : attrStep raw A idx ret with
    | panic p => exact ⟨p, rfl⟩
    | next idx' ret' =>
      obtain ⟨hlt, _, h4, hi, _, hne⟩ := attrStep_next hs
      have hL := peek16_lt raw.mem (raw.ptr + idx)
      rw [NLA_ALIGN_four] at hi
      have hb : peek16 raw.mem (raw.ptr + idx) = 4 ∨
          peek16 raw.mem (raw.ptr + idx) ≤ raw.cap - idx := by
        by_cases h : peek16 raw.mem (raw.ptr + idx) = 4
        · exact Or.inl h
        · exact Or.inr (hne h).1
      have hidx' : idx' ≤ raw.len + 3 ∧ idx + 4 ≤ idx' := by
        rcases hb with h | h
        · rw [h] at hi
          omega
        · omega
      exact ih idx' ret' hidx'.1 (by omega)

theorem attrSizeOf_lt (msg : NetlinkMessage) : attrSizeOf msg < 65536 := by
  unfold attrSizeOf
  omega

/-- C7 (counterexample) — regions declaring length 8 that hold fewer readable
bytes and are decoded into a map all the same: 4 readable bytes in a buffer with
spare capacity, and 6 readable bytes without spare capacity. -/
theorem ParseInetDiagAttr_short_region_accepted :
    (declaredLen declared8Readable4 = 8 ∧
      declared8Readable4.Data.len - SizeofInetDiagMsg = 4 ∧
      ParseInetDiagAttr 2 declared8Readable4 = .ok []) ∧
    (declaredLen declared8Readable6 = 8 ∧
      declared8Readable6.Data.len - SizeofInetDiagMsg = 6 ∧
      declared8Readable6.Data.cap = declared8Readable6.Data.len ∧
      ParseInetDiagAttr 3 declared8Readable6 = .ok []) := by
  decide

/-- C7 (amended) — a data frame whose `Data` has no spare capacity and whose
attribute region holds at least 4 readable bytes fewer than the 16-bit length the
decoder derives from the header is not decoded: `ParseInetDiagAttr` panics, so no
record is made from it. -/
theorem ParseInetDiagAttr_short_region (fuel : Nat) (msg : NetlinkMessage)
    (hcap : msg.Data.cap = msg.Data.len)
    (hshort : msg.Data.len - SizeofInetDiagMsg + 4 ≤ attrSizeOf msg)
    (hfuel : msg.Data.len ≤ fuel) :
    ∃ p, ParseInetDiagAttr fuel msg = .panic p := by
  rw [ParseInetDiagAttr_eq, if_neg (by omega)]
  by_cases hlen : SizeofInetDiagMsg ≤ msg.Data.len
  · have hs : msg.Data.sliceFrom SizeofInetDiagMsg
        = some { mem := msg.Data.mem, ptr := msg.Data.ptr + SizeofInetDiagMsg,
                 len := msg.Data.len - SizeofInetDiagMsg,
                 cap := msg.Data.cap - SizeofInetDiagMsg } := by
      unfold GoSlice.sliceFrom
      rw [if_pos hlen]
    rw [hs]
    have h72 : SizeofInetDiagMsg = 72 := rfl
    exact attrLoop_short _ (attrSizeOf msg) (by simp only [hcap]) hshort (attrSizeOf_lt msg)
      fuel 0 [] (Nat.zero_le _) (by simp only; omega)
  · have hs : msg.Data.sliceFrom SizeofInetDiagMsg = none := by
      unfold GoSlice.sliceFrom
      rw [if_neg hlen]
    rw [hs]
    exact ⟨_, rfl⟩

/-- Witness of `ParseInetDiagAttr_short_region`: a region declaring length 8 that
holds 4 readable bytes. -/
theorem ParseInetDiagAttr_short_region_witness :
    scenarioD.Data.cap = scenarioD.Data.len ∧
    scenarioD.Data.len - SizeofInetDiagMsg + 4 ≤ attrSizeOf scenarioD ∧
    scenarioD.Data.len ≤ 76 ∧
    ParseInetDiagAttr 76 scenarioD = .panic .indexRange ∧
    ∃ p, ParseInetDiagAttr 76 scenarioD = .panic p :=
  ⟨rfl, by decide, by decide, by decide,
    ParseInetDiagAttr_short_region 76 scenarioD rfl (by decide) (by decide)⟩

set_option maxRecDepth 4000 in
/-- C2 (counterexample) — bytes past the supplied region are used. On
`shortInfoFrame` (`Data` of 76 bytes) the returned entry describes a payload of 104
bytes starting at offset 76 of `Data`; the two frames `oneByteFrame 0` and
`oneByteFrame 1` agree on every byte of `Data` and are decoded differently, because
the high byte of the length field is read behind `Data`; on `wrapInfoFrame`, whose
`Data` has the 184 bytes its header declares, the returned entry describes a
payload of 65528 bytes. -/
theorem ParseInetDiagAttr_uses_bytes_past_region :
    (shortInfoFrame.Data.len = 76 ∧
      ParseInetDiagAttr 2 shortInfoFrame = .ok [(2, { ID := 2, Val := 76, Size := 104 })]) ∧
    ((oneByteFrame 0).Data.len = 73 ∧ (oneByteFrame 1).Data.len = 73 ∧
      (∀ a, a < 73 → (oneByteFrame 0).Data.mem a = (oneByteFrame 1).Data.mem a) ∧
      ParseInetDiagAttr 2 (oneByteFrame 0) = .ok [] ∧
      ParseInetDiagAttr 2 (oneByteFrame 1) = .panic .sliceBounds) ∧
    (wrapInfoFrame.Data.len = 184 ∧ declaredLen wrapInfoFrame = 112 ∧
      ParseInetDiagAttr 4 wrapInfoFrame = .ok [(2, { ID := 2, Val := 84, Size := 65528 })]) := by
  refine ⟨by decide, ⟨rfl, rfl, ?_, by decide, by decide⟩, by decide⟩
  intro a ha
  have h : ∀ hi, (oneByteFrame hi).Data.mem a = if a = 72 then 4 else 0 := by
    intro hi
    simp only [oneByteFrame, memOfList, hdr72]
    interval_cases a <;> rfl
  rw [h 0, h 1]

/-- C2 (amended) — at every step whose cursor is below 65532: when the 4-byte
header does not fit in the 16-bit declared length the step panics without reading
memory (a runtime bounds panic if the cursor is not inside `Data`, else "attr size
error"); and a step that completes had its header inside the declared length, its
cursor inside the length of the region, and a payload that ends within the
capacity of the region — not necessarily within its length. -/
theorem attrStep_guard (raw : GoSlice) (A idx : Nat) (ret : AttrMap)
    (hwf : raw.WF) (hidx : idx + 4 < 65536) :
    (A < idx + 4 →
      attrStep raw A idx ret =
        if raw.len < idx then .panic .sliceBounds
        else if raw.len = idx then .panic .indexRange
        else .panic .attrSizeError) ∧
    (∀ idx' ret', attrStep raw A idx ret = .next idx' ret' →
      idx + 4 ≤ A ∧ idx < raw.len ∧
      (peek16 raw.mem (raw.ptr + idx) = 4 ∨
        idx + peek16 raw.mem (raw.ptr + idx) ≤ raw.cap)) := by
  constructor
  · intro hA
    have hmod : (idx + 4) % 65536 = idx + 4 := Nat.mod_eq_of_lt hidx
    unfold attrStep GoSlice.sliceFrom
    by_cases h1 : raw.len < idx
    · rw [if_neg (by omega), if_pos h1]
    · rw [if_pos (by omega), if_neg h1]
      unfold GoSlice.addr0
      by_cases h2 : raw.len = idx
      · rw [if_pos h2]
        simp only [h2, Nat.sub_self, Nat.lt_irrefl, if_false]
      · rw [if_neg h2]
        have h3 : 0 < raw.len - idx := by omega
        simp only [h3, if_true, NLA_HDRLEN, hmod]
        rw [if_pos (by omega)]
  · intro idx' ret' h
    obtain ⟨hlt, hchk, h4, _, _, hne⟩ := attrStep_next h
    have hmod : (idx + 4) % 65536 = idx + 4 := Nat.mod_eq_of_lt hidx
    rw [hmod] at hchk
    refine ⟨hchk, hlt, ?_⟩
    by_cases h : peek16 raw.mem (raw.ptr + idx) = 4
    · exact Or.inl h
    · have := (hne h).1
      unfold GoSlice.WF at hwf
      exact Or.inr (by omega)

/-- Witness of `attrStep_guard`: the second attribute of `guardRegion` under a
declared length of 6 and under a declared length of 12. -/
theorem attrStep_guard_witness :
    guardRegion.WF ∧ (4 : Nat) + 4 < 65536 ∧
    attrStep guardRegion 6 4 [] = .panic .attrSizeError ∧
    attrStep guardRegion 12 4 [] = .next 12 [] ∧
    ((6 < 4 + 4 →
      attrStep guardRegion 6 4 [] =
        if guardRegion.len < 4 then .panic .sliceBounds
        else if guardRegion.len = 4 then .panic .indexRange
        else .panic .attrSizeError) ∧
    (∀ idx' ret', attrStep guardRegion 6 4 [] = .next idx' ret' →
      4 + 4 ≤ 6 ∧ 4 < guardRegion.len ∧
      (peek16 guardRegion.mem (guardRegion.ptr + 4) = 4 ∨
        4 + peek16 guardRegion.mem (guardRegion.ptr + 4) ≤ guardRegion.cap))) :=
  ⟨by decide, by decide, by decide, by decide,
    attrStep_guard guardRegion 6 4 [] (by decide) (by decide)⟩

/-! ## The returned map -/

theorem attrsVisited_succ (fuel : Nat) (mem : Nat → Nat) (base A idx : Nat) :
    attrsVisited (fuel + 1) mem base A idx =
      if idx < A then
        { off := idx, Len := peek16 mem (base + idx), Type_ := peek16 mem (base + idx + 2) }
          :: attrsVisited fuel mem base A
              ((idx + NLA_ALIGN (peek16 mem (base + idx)) NLA_ALIGNTO) % 65536)
      else [] := rfl

theorem lastInfo_cons (a : AttrHdr) (l : List AttrHdr) :
    lastInfo (a :: l) = if a.isInfo then some ((lastInfo l).getD a) else lastInfo l := by
  unfold lastInfo
  by_cases h : a.isInfo = true
  · rw [List.filter_cons_of_pos h, if_pos h, List.getLast?_cons]
  · rw [List.filter_cons_of_neg h, if_neg h]

theorem AttrMap_set_set (m : AttrMap) (k : Nat) (v w : InetDiagAttr) :
    (m.set k v).set k w = m.set k w := by
  unfold AttrMap.set
  simp [List.filter_cons, List.filter_filter]

/-- The `INET_DIAG_INFO` case of the switch, when it does not panic. -/
theorem attrSwitch_info {d : GoSlice} {ret ret' : AttrMap}
    (h : attrSwitch 2 d ret = .ok ret') :
    SizeofTCPInfo ≤ d.len ∧
    ret' = ret.set INET_DIAG_INFO
      { ID := INET_DIAG_INFO, Val := d.ptr, Size := d.len % 65536 } := by
  have hs : attrSwitch 2 d ret =
      match parseTcpInfoTcpInfo d with
      | .ok tcpinfo =>
        .ok (ret.set INET_DIAG_INFO
          { ID := INET_DIAG_INFO, Val := tcpinfo, Size := d.len % 65536 })
      | .error p => .error p := rfl
  rw [hs] at h
  unfold parseTcpInfoTcpInfo GoSlice.addr0 at h
  by_cases h1 : d.len < SizeofTCPInfo
  · rw [if_pos h1] at h
    cases h
  · rw [if_neg h1] at h
    have h2 : 0 < d.len := by
      unfold SizeofTCPInfo at h1
      omega
    rw [if_pos h2] at h
    cases h
    exact ⟨by omega, rfl⟩

/-- The map a finished walk returns, in terms of the attributes it visited. -/
theorem attrLoop_map (raw : GoSlice) (A : Nat) :
    ∀ fuel idx ret m, attrLoop fuel raw A idx ret = .ok m →
      (m = match lastInfo (attrsVisited fuel raw.mem raw.ptr A idx) with
           | none => ret
           | some a => ret.set INET_DIAG_INFO (infoEntry raw.ptr a).2) ∧
      ∀ a ∈ attrsVisited fuel raw.mem raw.ptr A idx,
        4 ≤ a.Len ∧ (a.isInfo = true → SizeofTCPInfo + 4 ≤ a.Len) := by
  intro fuel
  induction fuel with
  | zero =>
    intro idx ret m h
    cases h
  | succ k ih =>
    intro idx ret m h
    rw [attrLoop_succ] at h
    rw [attrsVisited_succ]
    by_cases hlt : idx < A
    · rw [if_pos hlt] at h ⊢
      cases hs : attrStep raw A idx ret with
      | panic p =>
        rw [hs] at h
        cases h
      | next idx' ret' =>
        rw [hs] at h
        obtain ⟨_, _, h4, hi, heq, hne⟩ := attrStep_next hs
        have hL := peek16_lt raw.mem (raw.ptr + idx)
        obtain ⟨hm, hall⟩ := ih idx' ret' m h
        rw [hi] at hm hall
        rw [lastInfo_cons]
        by_cases hinfo : AttrHdr.isInfo
            ⟨idx, peek16 raw.mem (raw.ptr + idx), peek16 raw.mem (raw.ptr + idx + 2)⟩ = true
        · have hty : peek16 raw.mem (raw.ptr + idx + 2) = 2 ∧
              4 < peek16 raw.mem (raw.ptr + idx) := by
            simpa [AttrHdr.isInfo, INET_DIAG_INFO] using hinfo
          have hsw := (hne (by omega)).2
          rw [hty.1] at hsw
          obtain ⟨hsz, hret⟩ := attrSwitch_info hsw
          simp only at hsz hret
          have hsize : (peek16 raw.mem (raw.ptr + idx) - 4) % 65536
              = peek16 raw.mem (raw.ptr + idx) - 4 := by omega
          rw [hsize] at hret
          constructor
          · rw [if_pos hinfo, hm, hret]
            cases hl : lastInfo (attrsVisited k raw.mem raw.ptr A
                ((idx + NLA_ALIGN (peek16 raw.mem (raw.ptr + idx)) NLA_ALIGNTO) % 65536)) with
            | none => rfl
            | some a => simp only [Option.getD_some, AttrMap_set_set]
          · intro a ha
            rcases List.mem_cons.mp ha with rfl | ha
            · exact ⟨h4, fun _ => (Nat.le_sub_iff_add_le (Nat.le_of_lt hty.2)).mp hsz⟩
            · exact hall a ha
        · have hret : ret' = ret := by
            by_cases hL4 : peek16 raw.mem (raw.ptr + idx) = 4
            · exact heq hL4
            · have hty : peek16 raw.mem (raw.ptr + idx + 2) ≠ 2 := by
                intro hc
                apply hinfo
                simp only [AttrHdr.isInfo, INET_DIAG_INFO, hc, decide_True, Bool.true_and,
                  decide_eq_true_eq]
                omega
              have hsw := (hne hL4).2
              rw [attrSwitch_other _ _ _ hty] at hsw
              cases hsw
              rfl
          constructor
          · rw [if_neg hinfo, hm, hret]
          · intro a ha
            rcases List.mem_cons.mp ha with rfl | ha
            · exact ⟨h4, fun hc => absurd hc hinfo⟩
            · exact hall a ha
    · rw [if_neg hlt] at h ⊢
      by_cases hne : idx ≠ A
      · rw [if_pos hne] at h
        cases h
      · rw [if_neg hne] at h
        cases h
        exact ⟨rfl, fun a ha => by cases ha⟩

theorem attrsVisited_zero (fuel : Nat) (mem : Nat → Nat) (base idx : Nat) :
    attrsVisited fuel mem base 0 idx = [] := by
  cases fuel with
  | zero => rfl
  | succ k => rw [attrsVisited_succ, if_neg (Nat.not_lt_zero _)]

theorem lastInfo_isSome (l : List AttrHdr) :
    (∃ a, lastInfo l = some a) ↔ ∃ a ∈ l, a.isInfo = true := by
  unfold lastInfo
  constructor
  · rintro ⟨a, ha⟩
    have hmem : a ∈ l.filter AttrHdr.isInfo := List.mem_of_getLast?_eq_some ha
    rw [List.mem_filter] at hmem
    exact ⟨a, hmem.1, hmem.2⟩
  · rintro ⟨a, hal, hinfo⟩
    have hmem : a ∈ l.filter AttrHdr.isInfo := List.mem_filter.mpr ⟨hal, hinfo⟩
    cases hf : (l.filter AttrHdr.isInfo).getLast? with
    | none =>
      rw [List.getLast?_eq_none_iff] at hf
      rw [hf] at hmem
      cases hmem
    | some b => exact ⟨b, rfl⟩

/-- An attribute of any type other than `INET_DIAG_INFO` whose header and payload
pass the bounds checks is stepped over: the map is unchanged and the cursor moves
by the aligned length. -/
theorem attrStep_skip (raw : GoSlice) (A idx : Nat) (ret : AttrMap)
    (hlen : idx < raw.len) (hchk : (idx + 4) % 65536 ≤ A)
    (h4 : 4 < peek16 raw.mem (raw.ptr + idx))
    (hcap : peek16 raw.mem (raw.ptr + idx) ≤ raw.cap - idx)
    (hty : peek16 raw.mem (raw.ptr + idx + 2) ≠ INET_DIAG_INFO) :
    attrStep raw A idx ret
      = .next ((idx + NLA_ALIGN (peek16 raw.mem (raw.ptr + idx)) NLA_ALIGNTO) % 65536) ret := by
  have hL := peek16_lt raw.mem (raw.ptr + idx)
  have hhigh : (4 + (65536 + peek16 raw.mem (raw.ptr + idx) - 4) % 65536) % 65536
      = peek16 raw.mem (raw.ptr + idx) := by omega
  have c1 : idx ≤ raw.len := Nat.le_of_lt hlen
  have c2 : 0 < raw.len - idx := by omega
  have c3 : ¬ ((idx + 4) % 65536 > A) := by omega
  have c4 : ¬ ((65536 + peek16 raw.mem (raw.ptr + idx) - 4) % 65536 = 0) := by omega
  have c5 : 4 ≤ peek16 raw.mem (raw.ptr + idx) := by omega
  simp only [attrStep, GoSlice.sliceFrom, GoSlice.addr0, GoSlice.slice, NLA_HDRLEN, c1, c2,
    c3, c4, c5, hcap, hhigh, if_true, if_false, and_self, attrSwitch_other _ _ _ hty]

/-- The returned map in terms of the headers the 16-bit cursor met: nothing but the
entry under `INET_DIAG_INFO`, present exactly when an extended-TCP-info attribute
with a non-empty payload was met, describing the last such attribute; attributes
of any other type pass the switch without touching the map and are stepped over
by their aligned length. -/
theorem ParseInetDiagAttr_map_cursor (fuel : Nat) (msg : NetlinkMessage) (m : AttrMap)
    (h : ParseInetDiagAttr fuel msg = .ok m) :
    m = ((lastInfo (cursorAttrs fuel msg)).map
          (infoEntry (msg.Data.ptr + SizeofInetDiagMsg))).toList ∧
    (∀ k v, (k, v) ∈ m → k = INET_DIAG_INFO ∧ v.ID = INET_DIAG_INFO) ∧
    ((∃ v, m.get? INET_DIAG_INFO = some v) ↔ ∃ a ∈ cursorAttrs fuel msg, a.isInfo = true) ∧
    (∀ a ∈ cursorAttrs fuel msg, 4 ≤ a.Len) ∧
    (∀ t d ret, t ≠ INET_DIAG_INFO → attrSwitch t d ret = .ok ret) ∧
    (∀ raw A idx ret, idx < raw.len → (idx + 4) % 65536 ≤ A →
      4 < peek16 raw.mem (raw.ptr + idx) →
      peek16 raw.mem (raw.ptr + idx) ≤ raw.cap - idx →
      peek16 raw.mem (raw.ptr + idx + 2) ≠ INET_DIAG_INFO →
      attrStep raw A idx ret
        = .next ((idx + NLA_ALIGN (peek16 raw.mem (raw.ptr + idx)) NLA_ALIGNTO) % 65536) ret) := by
  have hmain : m = ((lastInfo (cursorAttrs fuel msg)).map
        (infoEntry (msg.Data.ptr + SizeofInetDiagMsg))).toList ∧
      ∀ a ∈ cursorAttrs fuel msg, 4 ≤ a.Len := by
    rw [ParseInetDiagAttr_eq] at h
    unfold cursorAttrs
    by_cases hz : attrSizeOf msg = 0
    · rw [if_pos hz] at h
      cases h
      rw [hz, attrsVisited_zero]
      exact ⟨rfl, fun a ha => by cases ha⟩
    · rw [if_neg hz] at h
      unfold GoSlice.sliceFrom at h
      by_cases hlen : SizeofInetDiagMsg ≤ msg.Data.len
      · rw [if_pos hlen] at h
        obtain ⟨hm, hall⟩ := attrLoop_map _ _ fuel 0 [] m h
        simp only at hm hall
        refine ⟨?_, fun a ha => (hall a ha).1⟩
        rw [hm]
        cases lastInfo (attrsVisited fuel msg.Data.mem (msg.Data.ptr + SizeofInetDiagMsg)
          (attrSizeOf msg) 0) with
        | none => rfl
        | some a => rfl
      · rw [if_neg hlen] at h
        cases h
  obtain ⟨hm, hall⟩ := hmain
  refine ⟨hm, ?_, ?_, hall, fun t d ret ht => attrSwitch_other t d ret ht,
    fun raw A idx ret h1 h2 h3 h4 h5 => attrStep_skip raw A idx ret h1 h2 h3 h4 h5⟩
  · intro k v hkv
    rw [hm] at hkv
    cases hl : lastInfo (cursorAttrs fuel msg) with
    | none =>
      rw [hl] at hkv
      cases hkv
    | some a =>
      rw [hl] at hkv
      simp only [Option.map_some', Option.toList_some, List.mem_singleton, infoEntry,
        Prod.mk.injEq] at hkv
      obtain ⟨rfl, rfl⟩ := hkv
      exact ⟨rfl, rfl⟩
  · rw [← lastInfo_isSome, hm]
    cases hl : lastInfo (cursorAttrs fuel msg) with
    | none =>
      constructor
      · rintro ⟨v, hv⟩
        cases hv
      · rintro ⟨a, ha⟩
        cases ha
    | some a =>
      exact ⟨fun _ => ⟨a, rfl⟩, fun _ => ⟨_, rfl⟩⟩

set_option maxRecDepth 4000 in
/-- Instance of `ParseInetDiagAttr_map_cursor`: a frame whose region is one
extended-TCP-info attribute of 104 bytes. -/
theorem ParseInetDiagAttr_map_cursor_infoFrame :
    ParseInetDiagAttr 2 infoFrame = .ok [(2, { ID := 2, Val := 76, Size := 104 })] ∧
    cursorAttrs 2 infoFrame = [{ off := 0, Len := 108, Type_ := 2 }] ∧
    [(2, ({ ID := 2, Val := 76, Size := 104 } : InetDiagAttr))]
      = ((lastInfo (cursorAttrs 2 infoFrame)).map
          (infoEntry (infoFrame.Data.ptr + SizeofInetDiagMsg))).toList :=
  ⟨by decide, by decide, (ParseInetDiagAttr_map_cursor 2 infoFrame _ (by decide)).1⟩

/-- As long as no attribute of the region ends beyond offset 65535, walking with the
16-bit cursor meets exactly the attributes laid out in the region. -/
theorem attrsVisited_exact (mem : Nat → Nat) (base D : Nat) :
    ∀ fuel off,
      (∀ a ∈ attrsExact fuel mem base D off, a.off + roundUp4 a.Len < 65536) →
      attrsVisited fuel mem base D off = attrsExact fuel mem base D off := by
  intro fuel
  induction fuel with
  | zero =>
    intro off _
    rfl
  | succ k ih =>
    intro off h
    have hx : attrsExact (k + 1) mem base D off =
        if off < D then
          AttrHdr.mk off (peek16 mem (base + off)) (peek16 mem (base + off + 2))
            :: attrsExact k mem base D (off + roundUp4 (peek16 mem (base + off)))
        else [] := rfl
    rw [hx] at h ⊢
    rw [attrsVisited_succ]
    by_cases hlt : off < D
    · rw [if_pos hlt] at h
      rw [if_pos hlt, if_pos hlt]
      have h0 := h _ (List.mem_cons_self _ _)
      simp only at h0
      have hstep : (off + NLA_ALIGN (peek16 mem (base + off)) NLA_ALIGNTO) % 65536
          = off + roundUp4 (peek16 mem (base + off)) := by
        rw [NLA_ALIGN_four]
        unfold roundUp4 at h0 ⊢
        omega
      rw [hstep, ih _ (fun a ha => h a (List.mem_cons_of_mem _ ha))]
    · rw [if_neg hlt, if_neg hlt]

/-- On a frame whose declared region is shorter than 65536 bytes the decoder's
16-bit length is the declared length. -/
theorem attrSizeOf_eq_declaredLen (msg : NetlinkMessage)
    (hlo : NLMSG_HDRLEN + SizeofInetDiagMsg ≤ msg.Header.Len)
    (hhi : msg.Header.Len < 4294967296) (hD : declaredLen msg < 65536) :
    attrSizeOf msg = declaredLen msg := by
  have h72 : SizeofInetDiagMsg = 72 := rfl
  have h16 : NLMSG_HDRLEN = 16 := rfl
  unfold declaredLen at hD
  unfold attrSizeOf declaredLen
  rw [h72, h16] at hlo hD ⊢
  omega

/-- The returned map in terms of the attributes of the declared region: on a frame
whose declared region is shorter than 65536 bytes and none of whose attributes
ends beyond offset 65535, a successful `ParseInetDiagAttr` returns exactly the
entry of the last extended-TCP-info attribute with a payload, or the empty map. -/
theorem ParseInetDiagAttr_map_region (fuel : Nat) (msg : NetlinkMessage) (m : AttrMap)
    (h : ParseInetDiagAttr fuel msg = .ok m)
    (hlo : NLMSG_HDRLEN + SizeofInetDiagMsg ≤ msg.Header.Len)
    (hhi : msg.Header.Len < 4294967296) (hD : declaredLen msg < 65536)
    (hfit : ∀ a ∈ regionAttrs fuel msg, a.off + roundUp4 a.Len < 65536) :
    m = ((lastInfo (regionAttrs fuel msg)).map
          (infoEntry (msg.Data.ptr + SizeofInetDiagMsg))).toList := by
  have hc : cursorAttrs fuel msg = regionAttrs fuel msg := by
    unfold cursorAttrs regionAttrs at *
    rw [attrSizeOf_eq_declaredLen msg hlo hhi hD]
    exact attrsVisited_exact _ _ _ fuel 0 hfit
  rw [← hc]
  exact (ParseInetDiagAttr_map_cursor fuel msg m h).1

set_option maxRecDepth 4000 in
/-- Instance of `ParseInetDiagAttr_map_region`: a frame whose region is one
extended-TCP-info attribute of 104 bytes. -/
theorem ParseInetDiagAttr_map_region_infoFrame :
    regionAttrs 2 infoFrame = [{ off := 0, Len := 108, Type_ := 2 }] ∧
    [(2, ({ ID := 2, Val := 76, Size := 104 } : InetDiagAttr))]
      = ((lastInfo (regionAttrs 2 infoFrame)).map
          (infoEntry (infoFrame.Data.ptr + SizeofInetDiagMsg))).toList :=
  ⟨by decide, ParseInetDiagAttr_map_region 2 infoFrame _ (by decide) (by decide) (by decide)
    (by decide) (by decide)⟩

/-- C8 — on a frame whose declared region is 65536 bytes long and well formed (an
extended-TCP-info attribute of length 108 with 104 payload bytes, then one
attribute filling the rest, the exact walk landing on 65536) `ParseInetDiagAttr`
succeeds with an empty map for every fuel: the 16-bit length is 0, so the region
is not looked at and the entry under `INET_DIAG_INFO` is missing although the
region has an extended-TCP-info attribute with a non-empty payload. -/
theorem ParseInetDiagAttr_drops_info :
    declaredLen truncInfoFrame = 65536 ∧ attrSizeOf truncInfoFrame = 0 ∧
    truncInfoFrame.Data.len = truncInfoFrame.Header.Len - NLMSG_HDRLEN ∧
    frameWalk 3 truncInfoFrame = some 65536 ∧
    regionAttrs 3 truncInfoFrame
      = [{ off := 0, Len := 108, Type_ := 2 }, { off := 108, Len := 65428, Type_ := 1 }] ∧
    lastInfo (regionAttrs 3 truncInfoFrame) = some { off := 0, Len := 108, Type_ := 2 } ∧
    (∀ fuel, ParseInetDiagAttr fuel truncInfoFrame = .ok []) ∧
    AttrMap.get? [] INET_DIAG_INFO = none :=
  ⟨by decide, by decide, by decide, by decide, by decide, by decide, fun _ => rfl, rfl⟩

end TcpDiag
